import Mathlib

/-!
# Tag converters, schema builders and sweepers of the AWS provider

A shallow embedding of

* `internal/service/servicecatalog/tags_gen.go` (`Tags`, `KeyValueTags`),
* `internal/service/medialive/schemas.go` (the five schema builders),
* `internal/service/ec2/transit_gateway_test.go` and
  `internal/service/ec2/internet_gateway_test.go` (sweepers, pre-check, checks),

followed by the properties proved about them.

Conventions of the embedding:

* a Go `*string` is an `Option String` (`none` is the nil pointer); where the
  code compares two pointers with `==`, a pointer keeps its address as well
  (`StringPointer`);
* a Go slice is an `Option (List α)` (`none` is the nil slice);
* a Go map is an association list read front to back, so that every list is a
  map; the order in which `range` visits a map is not fixed by the language and
  is selected by a `seed` argument among all orderings of the entries;
* an API connection is a record of oracles that answer each call from the
  history of the calls made so far, and every function that talks to the API
  threads that history (the trace) through.
-/

/-! ## Go values -/

/-- The SDK's `aws.StringValue`: the pointed-to string, and the empty string for
a nil pointer. -/
def aws.StringValue (v : Option String) : String :=
  match v with
  | some s => s
  | none => ""

/-- The SDK's `aws.StringSlice`: pointers to the given strings. -/
def aws.StringSlice (src : List String) : List (Option String) := src.map some

/-- The SDK's `aws.String`: a pointer to the given string. -/
def aws.String (v : String) : Option String := some v

/-- A Go slice; `none` is the nil slice. -/
abbrev Slice (α : Type) := Option (List α)

/-- The elements a `range` over the slice visits (none for the nil slice). -/
def Slice.elems {α : Type} : Slice α → List α
  | none => []
  | some l => l

/-- A Go `map[string]V` as an association list read front to back: the first
binding of a key is the live one, later bindings of the same key are dead. -/
abbrev GoMap (V : Type) := List (String × V)

namespace GoMap

/-- The Go expression `m[k]` with the comma-ok result. -/
def get? {V : Type} : GoMap V → String → Option V
  | [], _ => none
  | (k, v) :: m, key => if k = key then some v else get? m key

/-- The Go statement `m[k] = v`. -/
def set {V : Type} (m : GoMap V) (k : String) (v : V) : GoMap V := (k, v) :: m

/-- The live bindings of the map, one per key. -/
def entries {V : Type} : GoMap V → List (String × V)
  | [] => []
  | (k, v) :: m => (k, v) :: (entries m).filter (fun e => decide (e.1 ≠ k))

/-- The Go expression `len(m)`. -/
def len {V : Type} (m : GoMap V) : Nat := (entries m).length

/-- The keys of the map, one occurrence each. -/
def keys {V : Type} (m : GoMap V) : List String := (entries m).map Prod.fst

/-- The sequence of bindings a `for k, v := range m` visits. Go leaves the order
unspecified; `seed` selects one of the orderings of the live bindings, and every
ordering is selected by some seed. -/
def range {V : Type} (seed : Nat) (m : GoMap V) : List (String × V) :=
  let orders := (entries m).permutations'
  orders.getD (seed % orders.length) (entries m)

end GoMap

/-! ## Tags (`internal/service/servicecatalog/tags_gen.go`) -/

/-- Modelled from the spec: the generic tag container `tftags.KeyValueTags` of
`internal/tags`, which is not part of the sources at hand. The spec calls it a
"generic tag mapping (ordered/unordered set of key-value string pairs)"; the
code at hand builds it from a `map[string]*string` and reads it back as a
`map[string]string`, so it is a map from keys to nullable string values. -/
abbrev tftags.KeyValueTags := GoMap (Option String)

/-- Modelled from the spec: `tftags.New` applied to a `map[string]*string`
(`internal/tags`, not part of the sources at hand): the container holding
exactly the given key-value pairs. -/
def tftags.New (m : GoMap (Option String)) : tftags.KeyValueTags := m

/-- Modelled from the spec: `KeyValueTags.Map` (`internal/tags`, not part of
the sources at hand): the key-value string pairs of the container, a nil value
being read as the empty string. -/
def tftags.KeyValueTags.Map (tags : tftags.KeyValueTags) : GoMap String :=
  List.map (fun e => (e.1, aws.StringValue e.2)) tags

/-- The SDK's `servicecatalog.Tag`. -/
structure servicecatalog.Tag where
  Key : Option String
  Value : Option String
deriving DecidableEq, Repr

/-- The function `Tags`, which returns servicecatalog service tags: one freshly
allocated tag per binding of `tags.Map()`, appended in the order the `range`
visits them. -/
def servicecatalog.Tags (seed : Nat) (tags : tftags.KeyValueTags) :
    Slice (Option servicecatalog.Tag) :=
  some ((GoMap.range seed tags.Map).foldl
    (fun result e => result ++ [some { Key := aws.String e.1, Value := aws.String e.2 }]) [])

/-- The loop of `KeyValueTags`: `m[aws.StringValue(tag.Key)] = tag.Value` for
each tag in turn; `none` is the nil-pointer panic of `tag.Key` on a nil tag. -/
def servicecatalog.KeyValueTags.loop :
    List (Option servicecatalog.Tag) → GoMap (Option String) → Option (GoMap (Option String))
  | [], m => some m
  | none :: _, _ => none
  | some tag :: rest, m => loop rest (m.set (aws.StringValue tag.Key) tag.Value)

/-- The function `KeyValueTags`, which creates `tftags.KeyValueTags` from
servicecatalog service tags; `none` is a run that panics. -/
def servicecatalog.KeyValueTags (tags : Slice (Option servicecatalog.Tag)) :
    Option tftags.KeyValueTags :=
  (servicecatalog.KeyValueTags.loop tags.elems []).map tftags.New

/-- The tag `Tags` allocates for one binding of the map. -/
def servicecatalog.tagOf (e : String × String) : Option servicecatalog.Tag :=
  some { Key := aws.String e.1, Value := aws.String e.2 }

/-- The binding `KeyValueTags` stores for one tag. -/
def servicecatalog.bindingOf (tag : servicecatalog.Tag) : String × Option String :=
  (aws.StringValue tag.Key, tag.Value)

/-! ## Schema builders (`internal/service/medialive/schemas.go`) -/

/-- The SDK's `schema.ValueType`; `TypeInvalid` is the zero value. -/
inductive schema.ValueType
  | TypeInvalid | TypeBool | TypeInt | TypeFloat | TypeString | TypeList | TypeMap | TypeSet
deriving DecidableEq, Repr

/-- The SDK's `schema.Resource`, over the type of its attributes' descriptors:
a map from attribute names to descriptors. -/
structure schema.ResourceOf (S : Type) where
  Schema : List (String × S)

/-- What the `Elem` field of a descriptor can hold when it is not nil: a nested
`*schema.Resource` or a `*schema.Schema`. -/
inductive schema.ElemOf (S : Type)
  | Resource (r : schema.ResourceOf S)
  | Schema (s : S)

/-- The SDK's `schema.Schema`, with the fields that describe the shape of an
attribute. A field a composite literal leaves out has its zero value, which is
the default here (for `Elem`, the nil interface value `none`, written out by the
builders below). The fields of the SDK's struct that are not listed (functions,
documentation strings, cross-attribute constraints) are set by none of the
builders. -/
structure schema.Schema where
  Type_ : schema.ValueType := schema.ValueType.TypeInvalid
  Optional : Bool := false
  Required : Bool := false
  Computed : Bool := false
  ForceNew : Bool := false
  Sensitive : Bool := false
  Elem : Option (schema.ElemOf schema.Schema)
  MaxItems : Int := 0
  MinItems : Int := 0

/-- The SDK's `schema.Resource`. -/
abbrev schema.Resource := schema.ResourceOf schema.Schema

/-- The builder `destinationSchema` of the medialive package. -/
def medialive.destinationSchema (_ : Unit) : schema.Schema :=
  { Type_ := schema.ValueType.TypeList
    Required := true
    MaxItems := 1
    Elem := some (schema.ElemOf.Resource
      { Schema := [("destination_ref_id",
          { Type_ := schema.ValueType.TypeString
            Required := true
            Elem := none })] }) }

/-- The builder `connectionRetryIntervalSchema` of the medialive package. -/
def medialive.connectionRetryIntervalSchema (_ : Unit) : schema.Schema :=
  { Type_ := schema.ValueType.TypeInt
    Optional := true
    Computed := true
    Elem := none }

/-- The builder `filecacheDurationSchema` of the medialive package. -/
def medialive.filecacheDurationSchema (_ : Unit) : schema.Schema :=
  { Type_ := schema.ValueType.TypeInt
    Optional := true
    Computed := true
    Elem := none }

/-- The builder `numRetriesSchema` of the medialive package. -/
def medialive.numRetriesSchema (_ : Unit) : schema.Schema :=
  { Type_ := schema.ValueType.TypeInt
    Optional := true
    Computed := true
    Elem := none }

/-- The builder `restartDelaySchema` of the medialive package. -/
def medialive.restartDelaySchema (_ : Unit) : schema.Schema :=
  { Type_ := schema.ValueType.TypeInt
    Optional := true
    Computed := true
    Elem := none }

/-- The attribute names of a nested resource. -/
def schema.ResourceOf.attributes {S : Type} (r : schema.ResourceOf S) : List String :=
  GoMap.keys r.Schema

/-! ## Errors -/

/-- A non-nil Go `error`, as far as the code at hand tells errors apart: an
`awserr.Error` of the SDK with its code and message, or any other error with
its text. The nil error is `none : Option GoError`. -/
inductive GoError
  | aws (code message : String)
  | other (text : String)
deriving DecidableEq, Repr

/-- The method `Error()`: the text a `%s` verb prints. -/
def GoError.Error : GoError → String
  | GoError.aws code message => code ++ ": " ++ message
  | GoError.other text => text

/-- What the `%s` verb prints for an `error` operand, nil included. -/
def fmt.verbS : Option GoError → String
  | some err => err.Error
  | none => "%!s(<nil>)"

/-- Go's `fmt.Errorf` with `%s` verbs only: a fresh error whose text is the format
with the operands spliced in, given here as the list of pieces. -/
def fmt.Errorf (pieces : List String) : GoError := GoError.other (String.join pieces)

/-- Whether the characters `sub` occur contiguously in the given characters. -/
def strings.hasInfix (sub : List Char) : List Char → Bool
  | [] => sub.isEmpty
  | c :: rest => sub.isPrefixOf (c :: rest) || strings.hasInfix sub rest

/-- Go's `strings.Contains`. -/
def strings.Contains (s substr : String) : Bool := strings.hasInfix substr.data s.data

/-- The helper `tfawserr.ErrMessageContains`: the error is an `awserr.Error` with the
given code whose message contains the given text. -/
def tfawserr.ErrMessageContains (err : Option GoError) (code message : String) : Bool :=
  match err with
  | some (GoError.aws c m) => decide (c = code) && strings.Contains m message
  | _ => false

/-- The SDK's `resource.RetryError`. -/
structure resource.RetryError where
  Err : GoError
  Retryable : Bool
deriving DecidableEq, Repr

/-- The SDK's `resource.RetryableError`; nil for a nil error. -/
def resource.RetryableError (err : Option GoError) : Option resource.RetryError :=
  err.map (fun e => { Err := e, Retryable := true })

/-- The SDK's `resource.NonRetryableError`; nil for a nil error. -/
def resource.NonRetryableError (err : Option GoError) : Option resource.RetryError :=
  err.map (fun e => { Err := e, Retryable := false })

/-- Go's `time.Second`, in nanoseconds. -/
def time.Second : Nat := 1000000000

/-- Go's `time.Minute`, in nanoseconds. -/
def time.Minute : Nat := 60 * time.Second

/-! ## The EC2 API -/

namespace ec2

/-- The SDK constant `ec2.AttachmentStatusDetaching`. -/
def AttachmentStatusDetaching : String := "detaching"

/-- The SDK constant `ec2.AttachmentStatusDetached`. -/
def AttachmentStatusDetached : String := "detached"

/-- The SDK constant `ec2.TransitGatewayStateDeleted`. -/
def TransitGatewayStateDeleted : String := "deleted"

/-- The SDK constant `ec2.TransitGatewayStateAvailable`. -/
def TransitGatewayStateAvailable : String := "available"

/-- The SDK's `ec2.Filter`. -/
structure Filter where
  Name : Option String
  Values : List (Option String)
deriving DecidableEq, Repr

/-- The SDK's `ec2.InternetGatewayAttachment`. -/
structure InternetGatewayAttachment where
  State : Option String := none
  VpcId : Option String
deriving DecidableEq, Repr

/-- The SDK's `ec2.InternetGateway`. The SDK fills `Attachments` with non-nil
pointers, so the elements are the attachments themselves. -/
structure InternetGateway where
  Attachments : List InternetGatewayAttachment
  InternetGatewayId : Option String
deriving DecidableEq, Repr

/-- The SDK's `ec2.DescribeInternetGatewaysInput`. -/
structure DescribeInternetGatewaysInput where
  Filters : Slice Filter := none
  InternetGatewayIds : Slice (Option String) := none
deriving DecidableEq, Repr

/-- The SDK's `ec2.DescribeInternetGatewaysOutput`, with non-nil elements. -/
structure DescribeInternetGatewaysOutput where
  InternetGateways : List InternetGateway
deriving DecidableEq, Repr

/-- The SDK's `ec2.Vpc`. -/
structure Vpc where
  VpcId : Option String
deriving DecidableEq, Repr

/-- The SDK's `ec2.DescribeVpcsInput`. -/
structure DescribeVpcsInput where
  Filters : Slice Filter := none
deriving DecidableEq, Repr

/-- The SDK's `ec2.DescribeVpcsOutput`, with non-nil elements. -/
structure DescribeVpcsOutput where
  Vpcs : List Vpc
deriving DecidableEq, Repr

/-- The SDK's `ec2.DetachInternetGatewayInput`. -/
structure DetachInternetGatewayInput where
  InternetGatewayId : Option String
  VpcId : Option String
deriving DecidableEq, Repr

/-- The SDK's `ec2.DeleteInternetGatewayInput`. -/
structure DeleteInternetGatewayInput where
  InternetGatewayId : Option String
deriving DecidableEq, Repr

/-- The SDK's `ec2.TransitGateway`. -/
structure TransitGateway where
  State : Option String
  TransitGatewayId : Option String
deriving DecidableEq, Repr

/-- The SDK's `ec2.DescribeTransitGatewaysInput`. -/
structure DescribeTransitGatewaysInput where
  MaxResults : Option Int := none
  NextToken : Option String := none
deriving DecidableEq, Repr

/-- The SDK's `ec2.DescribeTransitGatewaysOutput`, with non-nil elements. -/
structure DescribeTransitGatewaysOutput where
  NextToken : Option String
  TransitGateways : List TransitGateway
deriving DecidableEq, Repr

/-- The SDK's `ec2.DeleteTransitGatewayInput`. -/
structure DeleteTransitGatewayInput where
  TransitGatewayId : Option String
deriving DecidableEq, Repr

end ec2

/-- The refresh function `tfec2.DetachIGStateRefreshFunc(conn, gatewayID,
vpcID)` builds, as the arguments it closes over. -/
structure tfec2.DetachIGStateRefreshFunc where
  gatewayID : String
  vpcID : String
deriving DecidableEq, Repr

/-- The SDK's `resource.StateChangeConf`, with the fields the sweeper sets;
durations are in nanoseconds. -/
structure resource.StateChangeConf where
  Pending : List String
  Target : List String
  Refresh : tfec2.DetachIGStateRefreshFunc
  Timeout : Nat
  Delay : Nat
deriving DecidableEq, Repr

/-- One interaction with the EC2 API: a request of the SDK client, or a wait
that polls the API until a resource reaches a state. -/
inductive ec2.Call
  | DescribeInternetGateways (input : ec2.DescribeInternetGatewaysInput)
  | DescribeVpcs (input : ec2.DescribeVpcsInput)
  | DetachInternetGateway (input : ec2.DetachInternetGatewayInput)
  | WaitForState (conf : resource.StateChangeConf)
  | DeleteInternetGateway (input : ec2.DeleteInternetGatewayInput)
  | DescribeTransitGateways (input : ec2.DescribeTransitGatewaysInput)
  | DeleteTransitGateway (input : ec2.DeleteTransitGatewayInput)
  | WaitForTransitGatewayDeletion (id : String)
  | DescribeTransitGateway (id : String)
deriving DecidableEq, Repr

/-- The interactions of a run with the API, oldest first. -/
abbrev Trace := List ec2.Call

/-- Everything outside the code at hand that a run depends on.

The API and the waits are oracles: each answers a call from the history of the
calls made before it, so an answer may depend on what the run has done so far.

The helpers of this repository that the sources at hand call but do not contain
(`acctest.SharedRegionalSweeperClient`, `acctest.SkipSweepError`,
`acctest.PreCheckSkipError`, `tfresource.TimedOut`,
`tfec2.WaitForTransitGatewayDeletion`, `tfec2.DescribeTransitGateway`) are
fields as well, and so is the clock that the SDK's `resource.Retry` reads. -/
structure Env where
  /-- The error of `acctest.SharedRegionalSweeperClient(region)`, nil when the
  client is obtained. -/
  SharedRegionalSweeperClient : String → Option GoError
  /-- The helper `acctest.SkipSweepError`. -/
  SkipSweepError : Option GoError → Bool
  /-- The helper `acctest.PreCheckSkipError`. -/
  PreCheckSkipError : Option GoError → Bool
  /-- The helper `tfresource.TimedOut`. -/
  TimedOut : Option GoError → Bool
  DescribeInternetGateways :
    Trace → ec2.DescribeInternetGatewaysInput → Except GoError ec2.DescribeInternetGatewaysOutput
  /-- The output may be nil although the error is nil. -/
  DescribeVpcs : Trace → ec2.DescribeVpcsInput → Except GoError (Option ec2.DescribeVpcsOutput)
  DetachInternetGateway : Trace → ec2.DetachInternetGatewayInput → Option GoError
  /-- The error of `stateConf.WaitForState()`, nil when the target state is reached. -/
  WaitForState : Trace → resource.StateChangeConf → Option GoError
  DeleteInternetGateway : Trace → ec2.DeleteInternetGatewayInput → Option GoError
  DescribeTransitGateways :
    Trace → ec2.DescribeTransitGatewaysInput → Except GoError ec2.DescribeTransitGatewaysOutput
  DeleteTransitGateway : Trace → ec2.DeleteTransitGatewayInput → Option GoError
  /-- The error of `tfec2.WaitForTransitGatewayDeletion(conn, id)`. -/
  WaitForTransitGatewayDeletion : Trace → String → Option GoError
  /-- The results of `tfec2.DescribeTransitGateway(conn, id)`: an error, or the
  gateway found, nil when there is none. -/
  DescribeTransitGateway : Trace → String → Except GoError (Option ec2.TransitGateway)
  /-- How many further attempts `resource.Retry` with the given timeout has time
  for after the first one, when it starts after the given history. -/
  retryAttempts : Nat → Trace → Nat
  /-- What `resource.Retry` returns when its time is over, from the error of the
  last attempt. -/
  retryExpired : GoError → GoError

/-- The error of a call that returns an output and an error. -/
def errOf {α : Type} : Except GoError α → Option GoError
  | Except.error err => some err
  | Except.ok _ => none

/-- The SDK's `resource.Retry`, given the number of attempts there is time for
after the first: it runs `f` until `f` returns nil (then nil is returned) or an
error that is not retryable (then that error is returned), or until the time is
over after a retryable error. -/
def resource.Retry.loop (env : Env) (f : Trace → Option resource.RetryError × Trace) :
    Nat → Trace → Option GoError × Trace
  | 0, tr =>
    match f tr with
    | (none, tr1) => (none, tr1)
    | (some rerr, tr1) =>
      if rerr.Retryable then (some (env.retryExpired rerr.Err), tr1) else (some rerr.Err, tr1)
  | more + 1, tr =>
    match f tr with
    | (none, tr1) => (none, tr1)
    | (some rerr, tr1) =>
      if rerr.Retryable then resource.Retry.loop env f more tr1 else (some rerr.Err, tr1)

/-- The SDK's `resource.Retry(timeout, f)`. -/
def resource.Retry (env : Env) (timeout : Nat) (f : Trace → Option resource.RetryError × Trace)
    (tr : Trace) : Option GoError × Trace :=
  resource.Retry.loop env f (env.retryAttempts timeout tr) tr

/-! ## Internet gateway sweeper (`internal/service/ec2/internet_gateway_test.go`) -/

/-- How the loop over the attachments of one gateway ends: all attachments
visited, left by `break` at an attachment to the default VPC, or left by
`return` with an error. -/
inductive testSweepInternetGateways.AttachmentsEnd
  | completed
  | isDefaultVPCInternetGateway
  | returned (err : GoError)
deriving DecidableEq, Repr

/-- The loop `for _, attachment := range internetGateway.Attachments` of the
sweeper. -/
def testSweepInternetGateways.attachments (env : Env) (internetGateway : ec2.InternetGateway)
    (defaultVPCID : String) :
    List ec2.InternetGatewayAttachment → Trace →
      testSweepInternetGateways.AttachmentsEnd × Trace
  | [], tr => (testSweepInternetGateways.AttachmentsEnd.completed, tr)
  | attachment :: rest, tr =>
    if aws.StringValue attachment.VpcId = defaultVPCID then
      (testSweepInternetGateways.AttachmentsEnd.isDefaultVPCInternetGateway, tr)
    else
      let input : ec2.DetachInternetGatewayInput :=
        { InternetGatewayId := internetGateway.InternetGatewayId
          VpcId := attachment.VpcId }
      let tr1 := tr ++ [ec2.Call.DetachInternetGateway input]
      match env.DetachInternetGateway tr input with
      | some err =>
        (testSweepInternetGateways.AttachmentsEnd.returned
          (fmt.Errorf ["error detaching Internet Gateway (",
            aws.StringValue internetGateway.InternetGatewayId, ") from VPC (",
            aws.StringValue attachment.VpcId, "): ", err.Error]), tr1)
      | none =>
        let stateConf : resource.StateChangeConf :=
          { Pending := [ec2.AttachmentStatusDetaching]
            Target := [ec2.AttachmentStatusDetached]
            Refresh :=
              { gatewayID := aws.StringValue internetGateway.InternetGatewayId
                vpcID := aws.StringValue attachment.VpcId }
            Timeout := 10 * time.Minute
            Delay := 10 * time.Second }
        let tr2 := tr1 ++ [ec2.Call.WaitForState stateConf]
        match env.WaitForState tr1 stateConf with
        | some err =>
          (testSweepInternetGateways.AttachmentsEnd.returned
            (fmt.Errorf ["error waiting for VPN Gateway (",
              aws.StringValue internetGateway.InternetGatewayId, ") to detach from VPC (",
              aws.StringValue attachment.VpcId, "): ", err.Error]), tr2)
        | none =>
          testSweepInternetGateways.attachments env internetGateway defaultVPCID rest tr2

/-- The loop `for _, internetGateway := range resp.InternetGateways` of the
sweeper, and the `return nil` after it. -/
def testSweepInternetGateways.gateways (env : Env) (defaultVPCID : String) :
    List ec2.InternetGateway → Trace → Option GoError × Trace
  | [], tr => (none, tr)
  | internetGateway :: rest, tr =>
    match testSweepInternetGateways.attachments env internetGateway defaultVPCID
        internetGateway.Attachments tr with
    | (testSweepInternetGateways.AttachmentsEnd.returned err, tr1) => (some err, tr1)
    | (testSweepInternetGateways.AttachmentsEnd.isDefaultVPCInternetGateway, tr1) =>
      testSweepInternetGateways.gateways env defaultVPCID rest tr1
    | (testSweepInternetGateways.AttachmentsEnd.completed, tr1) =>
      let input : ec2.DeleteInternetGatewayInput :=
        { InternetGatewayId := internetGateway.InternetGatewayId }
      let tr2 := tr1 ++ [ec2.Call.DeleteInternetGateway input]
      match env.DeleteInternetGateway tr1 input with
      | some err =>
        (some (fmt.Errorf ["error deleting Internet Gateway (",
          aws.StringValue internetGateway.InternetGatewayId, "): ", err.Error]), tr2)
      | none => testSweepInternetGateways.gateways env defaultVPCID rest tr2

/-- The default VPC id the sweeper derives from the output of `DescribeVpcs`:
the id of the VPC when the output is non-nil and holds exactly one VPC, and
the empty string otherwise. -/
def testSweepInternetGateways.defaultVPCID
    (describeVpcsOutput : Option ec2.DescribeVpcsOutput) : String :=
  match describeVpcsOutput with
  | some output =>
    match output.Vpcs with
    | [vpc] => aws.StringValue vpc.VpcId
    | _ => ""
  | none => ""

/-- The sweeper `testSweepInternetGateways(region)`: the returned error and the calls made,
in a run that starts with no call made. -/
def testSweepInternetGateways (env : Env) (region : String) : Option GoError × Trace :=
  match env.SharedRegionalSweeperClient region with
  | some err => (some (fmt.Errorf ["error getting client: ", err.Error]), [])
  | none =>
    let req : ec2.DescribeInternetGatewaysInput := {}
    let tr1 := [ec2.Call.DescribeInternetGateways req]
    match env.DescribeInternetGateways [] req with
    | Except.error err =>
      if env.SkipSweepError (some err) then (none, tr1)
      else (some (fmt.Errorf ["Error describing Internet Gateways: ", err.Error]), tr1)
    | Except.ok resp =>
      if resp.InternetGateways.length = 0 then (none, tr1)
      else
        let describeVpcsInput : ec2.DescribeVpcsInput :=
          { Filters := some [{ Name := aws.String "isDefault", Values := aws.StringSlice ["true"] }] }
        let tr2 := tr1 ++ [ec2.Call.DescribeVpcs describeVpcsInput]
        match env.DescribeVpcs tr1 describeVpcsInput with
        | Except.error err => (some (fmt.Errorf ["Error describing VPCs: ", err.Error]), tr2)
        | Except.ok describeVpcsOutput =>
          testSweepInternetGateways.gateways env
            (testSweepInternetGateways.defaultVPCID describeVpcsOutput)
            resp.InternetGateways tr2

/-! ## Transit gateway sweeper and pre-check (`internal/service/ec2/transit_gateway_test.go`) -/

/-- How the function handed to `resource.Retry` by the sweeper turns the error
of `DeleteTransitGateway` into its result. -/
def testSweepEc2TransitGateways.classify (err : Option GoError) : Option resource.RetryError :=
  if tfawserr.ErrMessageContains err "IncorrectState"
      "has non-deleted Transit Gateway Attachments" then
    resource.RetryableError err
  else if tfawserr.ErrMessageContains err "IncorrectState"
      "has non-deleted DirectConnect Gateway Attachments" then
    resource.RetryableError err
  else if tfawserr.ErrMessageContains err "IncorrectState" "has non-deleted VPN Attachments" then
    resource.RetryableError err
  else if tfawserr.ErrMessageContains err "InvalidTransitGatewayID.NotFound" "" then
    none
  else if err ≠ none then
    resource.NonRetryableError err
  else
    none

/-- The function handed to `resource.Retry` by the sweeper: one
`DeleteTransitGateway` call, and the classification of its error. -/
def testSweepEc2TransitGateways.callback (env : Env) (input : ec2.DeleteTransitGatewayInput)
    (tr : Trace) : Option resource.RetryError × Trace :=
  (testSweepEc2TransitGateways.classify (env.DeleteTransitGateway tr input),
    tr ++ [ec2.Call.DeleteTransitGateway input])

/-- The loop `for _, transitGateway := range output.TransitGateways` of the
sweeper; the error is the one the sweeper returns from inside the loop, nil when
the loop runs to its end. -/
def testSweepEc2TransitGateways.gateways (env : Env) :
    List ec2.TransitGateway → Trace → Option GoError × Trace
  | [], tr => (none, tr)
  | transitGateway :: rest, tr =>
    if aws.StringValue transitGateway.State = ec2.TransitGatewayStateDeleted then
      testSweepEc2TransitGateways.gateways env rest tr
    else
      let id := aws.StringValue transitGateway.TransitGatewayId
      let input : ec2.DeleteTransitGatewayInput := { TransitGatewayId := aws.String id }
      let retried := resource.Retry env (2 * time.Minute)
        (testSweepEc2TransitGateways.callback env input) tr
      let deleted : Option GoError × Trace :=
        if env.TimedOut retried.1 then
          (env.DeleteTransitGateway retried.2 input,
            retried.2 ++ [ec2.Call.DeleteTransitGateway input])
        else retried
      match deleted.1 with
      | some err =>
        (some (fmt.Errorf ["error deleting EC2 Transit Gateway (", id, "): ", err.Error]),
          deleted.2)
      | none =>
        let tr3 := deleted.2 ++ [ec2.Call.WaitForTransitGatewayDeletion id]
        match env.WaitForTransitGatewayDeletion deleted.2 id with
        | some err =>
          (some (fmt.Errorf ["error waiting for EC2 Transit Gateway (", id, ") deletion: ",
            err.Error]), tr3)
        | none => testSweepEc2TransitGateways.gateways env rest tr3

/-- The loop `for { ... }` over the pages of `DescribeTransitGateways`, and the
`return nil` after it. Each iteration requests one page; `fuel` bounds the
number of iterations, and `none` is a run that needs more. -/
def testSweepEc2TransitGateways.pages (env : Env) :
    Nat → ec2.DescribeTransitGatewaysInput → Trace → Option (Option GoError × Trace)
  | 0, _, _ => none
  | fuel + 1, input, tr =>
    let result := env.DescribeTransitGateways tr input
    let tr1 := tr ++ [ec2.Call.DescribeTransitGateways input]
    if env.SkipSweepError (errOf result) then some (none, tr1)
    else
      match result with
      | Except.error err =>
        some (some (fmt.Errorf ["error retrieving EC2 Transit Gateways: ", err.Error]), tr1)
      | Except.ok output =>
        match testSweepEc2TransitGateways.gateways env output.TransitGateways tr1 with
        | (some err, tr2) => some (some err, tr2)
        | (none, tr2) =>
          if aws.StringValue output.NextToken = "" then some (none, tr2)
          else
            testSweepEc2TransitGateways.pages env fuel
              { input with NextToken := output.NextToken } tr2

/-- The sweeper `testSweepEc2TransitGateways(region)`: the returned error and the calls
made, in a run that starts with no call made and requests at most `fuel`
pages. -/
def testSweepEc2TransitGateways (env : Env) (fuel : Nat) (region : String) :
    Option (Option GoError × Trace) :=
  match env.SharedRegionalSweeperClient region with
  | some err => some (some (fmt.Errorf ["error getting client: ", err.Error]), [])
  | none => testSweepEc2TransitGateways.pages env fuel {} []

/-- How a pre-check leaves the test: it goes on, it is skipped by `t.Skipf`, or
it fails by `t.Fatalf`; both calls end the test function at once. -/
inductive testing.Outcome
  | proceeds
  | skipped (message : String)
  | fatal (message : String)
deriving DecidableEq, Repr

/-- The pre-check `testAccPreCheckTransitGateway(t)`: what becomes of the test, and the calls
made. -/
def testAccPreCheckTransitGateway (env : Env) (tr : Trace) : testing.Outcome × Trace :=
  let input : ec2.DescribeTransitGatewaysInput := { MaxResults := some 5 }
  let err := errOf (env.DescribeTransitGateways tr input)
  let tr1 := tr ++ [ec2.Call.DescribeTransitGateways input]
  if env.PreCheckSkipError err || tfawserr.ErrMessageContains err "InvalidAction" "" then
    (testing.Outcome.skipped ("skipping acceptance testing: " ++ fmt.verbS err), tr1)
  else if err ≠ none then
    (testing.Outcome.fatal ("unexpected PreCheck error: " ++ fmt.verbS err), tr1)
  else
    (testing.Outcome.proceeds, tr1)

/-! ## Observations on traces, and reference runs -/

/-- The requests of the `DeleteInternetGateway` calls of a trace, in order. -/
def deleteInternetGatewayInputs (tr : Trace) : List ec2.DeleteInternetGatewayInput :=
  tr.filterMap (fun call =>
    match call with
    | ec2.Call.DeleteInternetGateway input => some input
    | _ => none)

/-- The number of `DescribeTransitGateways` calls of a trace. -/
def describeTransitGatewaysCount (tr : Trace) : Nat :=
  tr.countP (fun call =>
    match call with
    | ec2.Call.DescribeTransitGateways _ => true
    | _ => false)

/-- Whether no attachment of the gateway is to the VPC with the given id, the
id of an attachment being read with `aws.StringValue`. -/
def notAttachedTo (defaultVPCID : String) (internetGateway : ec2.InternetGateway) : Bool :=
  internetGateway.Attachments.all (fun attachment =>
    decide (aws.StringValue attachment.VpcId ≠ defaultVPCID))

/-- The calls expected for the gateways of one page of transit gateways: for
each gateway whose state is not "deleted", in listing order, one
`DeleteTransitGateway` followed by the wait for its deletion. -/
def expectedDeletions (transitGateways : List ec2.TransitGateway) : Trace :=
  (transitGateways.filter (fun transitGateway =>
      decide (aws.StringValue transitGateway.State ≠ "deleted"))).flatMap
    (fun transitGateway =>
      [ec2.Call.DeleteTransitGateway
          { TransitGatewayId := some (aws.StringValue transitGateway.TransitGatewayId) },
        ec2.Call.WaitForTransitGatewayDeletion (aws.StringValue transitGateway.TransitGatewayId)])

/-- The calls expected for a sequence of pages of transit gateways: each page
is requested with the `NextToken` of the page before it (the first with none)
and is followed by the deletions of its gateways. -/
def expectedSweep : Option String → List ec2.DescribeTransitGatewaysOutput → Trace
  | _, [] => []
  | token, page :: rest =>
    ec2.Call.DescribeTransitGateways { NextToken := token } ::
      (expectedDeletions page.TransitGateways ++ expectedSweep page.NextToken rest)

/-- An environment in which every call succeeds: `DescribeInternetGateways`
lists the given gateways, `DescribeVpcs` returns the given output, and the
successive `DescribeTransitGateways` calls return the given pages in turn and
the page `last` from then on. The helpers of the repository flag no error. -/
def Env.succeeding (internetGateways : List ec2.InternetGateway)
    (vpcs : Option ec2.DescribeVpcsOutput) (pages : List ec2.DescribeTransitGatewaysOutput)
    (last : ec2.DescribeTransitGatewaysOutput) : Env where
  SharedRegionalSweeperClient := fun _ => none
  SkipSweepError := fun _ => false
  PreCheckSkipError := fun _ => false
  TimedOut := fun _ => false
  DescribeInternetGateways := fun _ _ => Except.ok { InternetGateways := internetGateways }
  DescribeVpcs := fun _ _ => Except.ok vpcs
  DetachInternetGateway := fun _ _ => none
  WaitForState := fun _ _ => none
  DeleteInternetGateway := fun _ _ => none
  DescribeTransitGateways := fun tr _ => Except.ok (pages.getD (describeTransitGatewaysCount tr) last)
  DeleteTransitGateway := fun _ _ => none
  WaitForTransitGatewayDeletion := fun _ _ => none
  DescribeTransitGateway := fun _ _ => Except.ok none
  retryAttempts := fun _ _ => 0
  retryExpired := fun err => err

/-- Three internet gateways: the first attached to the VPC `vpc-0`, the second
to `vpc-1`, the third unattached. -/
def Env.sampleInternetGateways : List ec2.InternetGateway :=
  [{ InternetGatewayId := some "igw-a", Attachments := [{ VpcId := some "vpc-0" }] },
   { InternetGatewayId := some "igw-b", Attachments := [{ VpcId := some "vpc-1" }] },
   { InternetGatewayId := some "igw-c", Attachments := [] }]

/-- A first page of transit gateways, with a token for the next page. -/
def Env.samplePage : ec2.DescribeTransitGatewaysOutput :=
  { NextToken := some "page-2",
    TransitGateways := [{ State := some "available", TransitGatewayId := some "tgw-a" },
                        { State := some "deleted", TransitGatewayId := some "tgw-b" }] }

/-- A last page of transit gateways. -/
def Env.sampleLastPage : ec2.DescribeTransitGatewaysOutput :=
  { NextToken := none,
    TransitGateways := [{ State := some "pending", TransitGatewayId := some "tgw-c" }] }

/-- A reference environment: every call succeeds; the three internet gateways
above, `vpc-0` as the only default VPC, and the two pages of transit gateways
above. -/
def Env.sample : Env :=
  Env.succeeding Env.sampleInternetGateways (some { Vpcs := [{ VpcId := some "vpc-0" }] })
    [Env.samplePage, Env.sampleLastPage] Env.sampleLastPage

/-! ## Test checks (`internet_gateway_test.go`, `transit_gateway_test.go`) -/

/-- Go's `errors.New`. -/
def errors.New (text : String) : GoError := GoError.other text

/-- The SDK's `terraform.InstanceState`, with the field the checks read. -/
structure terraform.InstanceState where
  ID : String
deriving DecidableEq, Repr

/-- The SDK's `terraform.ResourceState`, with the fields the checks read. The
test harness hands the checks resources with a primary instance, so `Primary`
is the instance itself. -/
structure terraform.ResourceState where
  Type_ : String
  Primary : terraform.InstanceState
deriving DecidableEq, Repr

/-- The SDK's `terraform.State`, as its root module's map from resource names
to resources (`s.RootModule().Resources`). -/
structure terraform.State where
  Resources : GoMap terraform.ResourceState

/-- A non-nil `*string` together with its identity: the address it points to
and the string stored there. -/
structure StringPointer where
  address : Nat
  value : String
deriving DecidableEq, Repr

/-- Go's `==` on two `*string`: both nil, or both pointing to the same
address. The strings stored are not looked at. -/
def StringPointer.eq (p q : Option StringPointer) : Bool :=
  match p, q with
  | none, none => true
  | some a, some b => decide (a.address = b.address)
  | _, _ => false

/-- The string a `*string` stands for, as `aws.StringValue` reads it. -/
def StringPointer.StringValue (p : Option StringPointer) : String :=
  match p with
  | some a => a.value
  | none => ""

/-- An `ec2.InternetGatewayAttachment` as `testNotEqual` sees it: its `VpcId`
is the pointer itself, not the string it points to. -/
structure TestAccEC2InternetGateway_basic.Attachment where
  VpcId : Option StringPointer
deriving DecidableEq, Repr

/-- An `ec2.InternetGateway` captured by the test (`v`, `v2`), with the
attachments `testNotEqual` reads. -/
structure TestAccEC2InternetGateway_basic.Gateway where
  Attachments : List TestAccEC2InternetGateway_basic.Attachment
deriving DecidableEq, Repr

/-- The closure `testNotEqual` of `TestAccEC2InternetGateway_basic`, over the
captured gateways `v` and `v2`; the state argument is not used. -/
def TestAccEC2InternetGateway_basic.testNotEqual
    (v v2 : TestAccEC2InternetGateway_basic.Gateway) : Option GoError :=
  match v.Attachments, v2.Attachments with
  | [], _ => some (fmt.Errorf ["IG A is not attached"])
  | _ :: _, [] => some (fmt.Errorf ["IG B is not attached"])
  | a :: _, b :: _ =>
    let id1 := a.VpcId
    let id2 := b.VpcId
    if StringPointer.eq id1 id2 then some (fmt.Errorf ["Both attachment IDs are the same"])
    else none

/-- The check `testAccCheckTransitGatewayNotRecreated(i, j)`, over the gateways
the two handles point to when the check runs. -/
def testAccCheckTransitGatewayNotRecreated (i j : ec2.TransitGateway)
    (_ : terraform.State) : Option GoError :=
  if aws.StringValue i.TransitGatewayId ≠ aws.StringValue j.TransitGatewayId then
    some (errors.New "EC2 Transit Gateway was recreated")
  else none

/-- The check `testAccCheckTransitGatewayRecreated(i, j)`, over the gateways the
two handles point to when the check runs. -/
def testAccCheckTransitGatewayRecreated (i j : ec2.TransitGateway)
    (_ : terraform.State) : Option GoError :=
  if aws.StringValue i.TransitGatewayId = aws.StringValue j.TransitGatewayId then
    some (errors.New "EC2 Transit Gateway was not recreated")
  else none

/-- The loop of `testAccCheckInternetGatewayDestroy` over the resources in the
order they are visited, and the `return nil` after it. -/
def testAccCheckInternetGatewayDestroy.loop (env : Env) :
    List (String × terraform.ResourceState) → Trace → Option GoError × Trace
  | [], tr => (none, tr)
  | (_, rs) :: rest, tr =>
    if rs.Type_ ≠ "aws_internet_gateway" then
      testAccCheckInternetGatewayDestroy.loop env rest tr
    else
      let input : ec2.DescribeInternetGatewaysInput :=
        { InternetGatewayIds := some [aws.String rs.Primary.ID] }
      let tr1 := tr ++ [ec2.Call.DescribeInternetGateways input]
      match env.DescribeInternetGateways tr input with
      | Except.ok resp =>
        if resp.InternetGateways.length > 0 then (some (fmt.Errorf ["still exists"]), tr1)
        else (none, tr1)
      | Except.error err =>
        if !tfawserr.ErrMessageContains (some err) "InvalidInternetGatewayID.NotFound" "" then
          (some err, tr1)
        else testAccCheckInternetGatewayDestroy.loop env rest tr1

/-- The check `testAccCheckInternetGatewayDestroy(s)`: the returned error and
the calls made; `seed` selects the order in which the resources are visited. -/
def testAccCheckInternetGatewayDestroy (env : Env) (seed : Nat) (s : terraform.State)
    (tr : Trace) : Option GoError × Trace :=
  testAccCheckInternetGatewayDestroy.loop env (GoMap.range seed s.Resources) tr

/-- The loop of `testAccCheckTransitGatewayDestroy` over the resources in the
order they are visited, and the `return nil` after it. -/
def testAccCheckTransitGatewayDestroy.loop (env : Env) :
    List (String × terraform.ResourceState) → Trace → Option GoError × Trace
  | [], tr => (none, tr)
  | (_, rs) :: rest, tr =>
    if rs.Type_ ≠ "aws_ec2_transit_gateway" then
      testAccCheckTransitGatewayDestroy.loop env rest tr
    else
      let result := env.DescribeTransitGateway tr rs.Primary.ID
      let tr1 := tr ++ [ec2.Call.DescribeTransitGateway rs.Primary.ID]
      if tfawserr.ErrMessageContains (errOf result) "InvalidTransitGatewayID.NotFound" "" then
        testAccCheckTransitGatewayDestroy.loop env rest tr1
      else
        match result with
        | Except.error err => (some err, tr1)
        | Except.ok none => testAccCheckTransitGatewayDestroy.loop env rest tr1
        | Except.ok (some transitGateway) =>
          if aws.StringValue transitGateway.State ≠ ec2.TransitGatewayStateDeleted then
            (some (fmt.Errorf ["EC2 Transit Gateway (", rs.Primary.ID,
              ") still exists in non-deleted (", aws.StringValue transitGateway.State,
              ") state"]), tr1)
          else testAccCheckTransitGatewayDestroy.loop env rest tr1

/-- The check `testAccCheckTransitGatewayDestroy(s)`: the returned error and
the calls made; `seed` selects the order in which the resources are visited. -/
def testAccCheckTransitGatewayDestroy (env : Env) (seed : Nat) (s : terraform.State)
    (tr : Trace) : Option GoError × Trace :=
  testAccCheckTransitGatewayDestroy.loop env (GoMap.range seed s.Resources) tr

/-- The check `testAccCheckTransitGatewayExists(resourceName, transitGateway)`:
the returned error, the gateway `*transitGateway` holds afterwards (`out` is
what it holds before), and the calls made. -/
def testAccCheckTransitGatewayExists (env : Env) (resourceName : String)
    (out : ec2.TransitGateway) (s : terraform.State) (tr : Trace) :
    Option GoError × ec2.TransitGateway × Trace :=
  match GoMap.get? s.Resources resourceName with
  | none => (some (fmt.Errorf ["Not found: ", resourceName]), out, tr)
  | some rs =>
    if rs.Primary.ID = "" then (some (fmt.Errorf ["No EC2 Transit Gateway ID is set"]), out, tr)
    else
      let tr1 := tr ++ [ec2.Call.DescribeTransitGateway rs.Primary.ID]
      match env.DescribeTransitGateway tr rs.Primary.ID with
      | Except.error err => (some err, out, tr1)
      | Except.ok none => (some (fmt.Errorf ["EC2 Transit Gateway not found"]), out, tr1)
      | Except.ok (some gateway) =>
        if aws.StringValue gateway.State ≠ ec2.TransitGatewayStateAvailable then
          (some (fmt.Errorf ["EC2 Transit Gateway (", rs.Primary.ID,
            ") exists in non-available (", aws.StringValue gateway.State, ") state"]), out, tr1)
        else (none, gateway, tr1)

/-! ## Reference inputs of the test checks -/

/-- Two captured gateways attached to the same VPC `vpc-1`, each holding the id
in a string of its own (at addresses 1 and 2), as two API responses do. -/
def TestAccEC2InternetGateway_basic.sameVpcTwice :
    TestAccEC2InternetGateway_basic.Gateway × TestAccEC2InternetGateway_basic.Gateway :=
  ({ Attachments := [{ VpcId := some { address := 1, value := "vpc-1" } }] },
   { Attachments := [{ VpcId := some { address := 2, value := "vpc-1" } }] })

/-- A state with two internet gateways, `igw-gone` and `igw-live`. -/
def terraform.State.twoInternetGateways : terraform.State :=
  { Resources :=
      [("aws_internet_gateway.gone",
          { Type_ := "aws_internet_gateway", Primary := { ID := "igw-gone" } }),
       ("aws_internet_gateway.live",
          { Type_ := "aws_internet_gateway", Primary := { ID := "igw-live" } })] }

/-- An environment in which `igw-live` still exists and no other internet
gateway does: `DescribeInternetGateways` for `igw-live` returns it, and for any
other request succeeds with an empty list. -/
def Env.oneGatewayLeft : Env :=
  { Env.sample with
    DescribeInternetGateways := fun _ input =>
      if input.InternetGatewayIds = some [some "igw-live"] then
        Except.ok { InternetGateways :=
          [{ InternetGatewayId := some "igw-live", Attachments := [] }] }
      else Except.ok { InternetGateways := [] } }

/-- A state with a transit gateway `tgw-a`, under the name
`aws_ec2_transit_gateway.test`, and a VPC. -/
def terraform.State.oneTransitGateway : terraform.State :=
  { Resources :=
      [("aws_vpc.test", { Type_ := "aws_vpc", Primary := { ID := "vpc-1" } }),
       ("aws_ec2_transit_gateway.test",
          { Type_ := "aws_ec2_transit_gateway", Primary := { ID := "tgw-a" } })] }

/-- What `tfec2.DescribeTransitGateway` finds while `tgw-a` is available and no
other transit gateway exists. -/
def Env.transitGatewayAvailable.answer (id : String) :
    Except GoError (Option ec2.TransitGateway) :=
  if id = "tgw-a" then
    Except.ok (some { State := some "available", TransitGatewayId := some "tgw-a" })
  else Except.error (GoError.aws "InvalidTransitGatewayID.NotFound" "no such gateway")

/-- An environment in which the transit gateway `tgw-a` is available. -/
def Env.transitGatewayAvailable : Env :=
  { Env.sample with
    DescribeTransitGateway := fun _ id => Env.transitGatewayAvailable.answer id }

/-! ## Reference inputs of the sweepers -/

/-- The request the transit-gateway sweeper builds to delete a gateway. -/
def testSweepEc2TransitGateways.deleteInput (transitGateway : ec2.TransitGateway) :
    ec2.DeleteTransitGatewayInput :=
  { TransitGatewayId := aws.String (aws.StringValue transitGateway.TransitGatewayId) }

/-- What the retry helper returns for a gateway in the transit-gateway sweeper,
and the calls made until then, when it is started after the history `tr`. -/
def testSweepEc2TransitGateways.retried (env : Env) (transitGateway : ec2.TransitGateway)
    (tr : Trace) : Option GoError × Trace :=
  resource.Retry env (2 * time.Minute)
    (testSweepEc2TransitGateways.callback env
      (testSweepEc2TransitGateways.deleteInput transitGateway)) tr

/-- Whether the trace holds a `DeleteTransitGateway` call. -/
def hasDeleteTransitGateway (tr : Trace) : Bool :=
  tr.any (fun call =>
    match call with
    | ec2.Call.DeleteTransitGateway _ => true
    | _ => false)

/-- An environment in which the retry helper times out: the first
`DeleteTransitGateway` call fails with attachments left and there is no time
for a second attempt; the helper then reports a timeout, which
`tfresource.TimedOut` recognises; every later `DeleteTransitGateway` call finds
the gateway gone. -/
def Env.retryTimesOut : Env :=
  { Env.sample with
    DeleteTransitGateway := fun tr _ =>
      if hasDeleteTransitGateway tr then
        some (GoError.aws "InvalidTransitGatewayID.NotFound" "gone")
      else some (GoError.aws "IncorrectState" "tgw-a has non-deleted VPN Attachments")
    retryAttempts := fun _ _ => 0
    retryExpired := fun _ => GoError.other "timeout while waiting for state"
    TimedOut := fun err => decide (err = some (GoError.other "timeout while waiting for state")) }

/-- An environment with one internet gateway, `igw-d`, attached first to
`vpc-1` and then to the default VPC `vpc-0`; every call succeeds. -/
def Env.defaultVpcSecond : Env :=
  Env.succeeding
    [{ InternetGatewayId := some "igw-d",
       Attachments := [{ VpcId := some "vpc-1" }, { VpcId := some "vpc-0" }] }]
    (some { Vpcs := [{ VpcId := some "vpc-0" }] }) [] Env.sampleLastPage

/-- An environment in which `DescribeInternetGateways` fails with an error that
`acctest.SkipSweepError` accepts. -/
def Env.sweepUnsupported : Env :=
  { Env.sample with
    DescribeInternetGateways := fun _ _ =>
      Except.error (GoError.aws "UnsupportedOperation" "not available in this region")
    SkipSweepError := fun err =>
      tfawserr.ErrMessageContains err "UnsupportedOperation" "" }

/-! ## Observations on the order of calls -/

/-- The error with which a call is answered when it is made after the given
history; nil when the call succeeds. -/
def Env.errorOf (env : Env) (history : Trace) : ec2.Call → Option GoError
  | ec2.Call.DescribeInternetGateways input => errOf (env.DescribeInternetGateways history input)
  | ec2.Call.DescribeVpcs input => errOf (env.DescribeVpcs history input)
  | ec2.Call.DetachInternetGateway input => env.DetachInternetGateway history input
  | ec2.Call.WaitForState conf => env.WaitForState history conf
  | ec2.Call.DeleteInternetGateway input => env.DeleteInternetGateway history input
  | ec2.Call.DescribeTransitGateways input => errOf (env.DescribeTransitGateways history input)
  | ec2.Call.DeleteTransitGateway input => env.DeleteTransitGateway history input
  | ec2.Call.WaitForTransitGatewayDeletion id => env.WaitForTransitGatewayDeletion history id
  | ec2.Call.DescribeTransitGateway id => errOf (env.DescribeTransitGateway history id)

/-- The wait that belongs to a detach request: for the detached state of the
attachment the request names, from the detaching state, with a timeout of ten
minutes and a delay of ten seconds. -/
def waitForDetached (input : ec2.DetachInternetGatewayInput) : resource.StateChangeConf :=
  { Pending := ["detaching"]
    Target := ["detached"]
    Refresh :=
      { gatewayID := aws.StringValue input.InternetGatewayId
        vpcID := aws.StringValue input.VpcId }
    Timeout := 10 * time.Minute
    Delay := 10 * time.Second }

/-- The calls that detach the given attachments of a gateway: for each, in
order, the detach request and the wait that belongs to it. -/
def detachmentsOf (internetGatewayId : Option String)
    (attachments : List ec2.InternetGatewayAttachment) : Trace :=
  attachments.flatMap (fun attachment =>
    [ec2.Call.DetachInternetGateway
        { InternetGatewayId := internetGatewayId, VpcId := attachment.VpcId },
      ec2.Call.WaitForState
        (waitForDetached { InternetGatewayId := internetGatewayId, VpcId := attachment.VpcId })])

/-- The calls that detach every attachment of a gateway. -/
def detachments (internetGateway : ec2.InternetGateway) : Trace :=
  detachmentsOf internetGateway.InternetGatewayId internetGateway.Attachments

/-- Whether the call is a `DeleteInternetGateway`. -/
def isDeleteInternetGateway : ec2.Call → Bool
  | ec2.Call.DeleteInternetGateway _ => true
  | _ => false

/-- Every detach request of the trace is directly followed by the wait that
belongs to it. -/
def detachesWaited (tr : Trace) : Prop :=
  ∀ i input, tr[i]? = some (ec2.Call.DetachInternetGateway input) →
    tr[i + 1]? = some (ec2.Call.WaitForState (waitForDetached input))

/-- Every call of the trace succeeded when it was made. -/
def allSucceeded (env : Env) (tr : Trace) : Prop :=
  ∀ i call, tr[i]? = some call → env.errorOf (tr.take i) call = none

/-- Every `DeleteInternetGateway` of the trace is for one of the given gateways
and comes directly after the calls that detach every attachment of it. -/
def deletesPrepared (gws : List ec2.InternetGateway) (tr : Trace) : Prop :=
  ∀ i input, tr[i]? = some (ec2.Call.DeleteInternetGateway input) →
    ∃ gw ∈ gws, input = { InternetGatewayId := gw.InternetGatewayId } ∧
      detachments gw <:+ tr.take i

/-- The request the internet-gateway sweeper builds to detach an attachment. -/
def testSweepInternetGateways.detachInput (internetGateway : ec2.InternetGateway)
    (attachment : ec2.InternetGatewayAttachment) : ec2.DetachInternetGatewayInput :=
  { InternetGatewayId := internetGateway.InternetGatewayId, VpcId := attachment.VpcId }

/-- The trace is a history `start` grown by calls that all succeeded but the
last, which failed. -/
def endedByFailure (env : Env) (start tr : Trace) : Prop :=
  ∃ succeeded call, tr = succeeded ++ [call] ∧ start <+: succeeded ∧
    allSucceeded env succeeded ∧ env.errorOf succeeded call ≠ none

/-- Every detach request of the trace is directly followed by the wait that
belongs to it, but for a last request that failed. -/
def detachesWaitedOrFailed (env : Env) (tr : Trace) : Prop :=
  detachesWaited tr ∨
    ∃ earlier input, tr = earlier ++ [ec2.Call.DetachInternetGateway input] ∧
      detachesWaited earlier ∧ env.DetachInternetGateway earlier input ≠ none

/-- What holds after the loop over the attachments of a gateway, by the way the
loop ends, for the calls `ext` it added to the history `tr`. -/
def testSweepInternetGateways.attachmentsPost (env : Env)
    (internetGateway : ec2.InternetGateway) (attachments : List ec2.InternetGatewayAttachment)
    (tr ext : Trace) : testSweepInternetGateways.AttachmentsEnd → Prop
  | testSweepInternetGateways.AttachmentsEnd.completed =>
    ext = detachmentsOf internetGateway.InternetGatewayId attachments ∧
      detachesWaited (tr ++ ext) ∧ allSucceeded env (tr ++ ext)
  | testSweepInternetGateways.AttachmentsEnd.isDefaultVPCInternetGateway =>
    detachesWaited (tr ++ ext) ∧ allSucceeded env (tr ++ ext)
  | testSweepInternetGateways.AttachmentsEnd.returned _ =>
    endedByFailure env tr (tr ++ ext) ∧ detachesWaitedOrFailed env (tr ++ ext)
/-! ## Lemmas on Go maps -/

namespace GoMap

theorem mem_entries_iff {V : Type} (m : GoMap V) (k : String) (v : V) :
    (k, v) ∈ entries m ↔ get? m k = some v := by
  induction m with
  | nil => simp [entries, get?]
  | cons e m ih =>
    obtain ⟨k0, v0⟩ := e
    simp only [entries, get?, List.mem_cons, List.mem_filter, Prod.mk.injEq]
    by_cases h : k0 = k
    · subst h
      simp
      constructor
      · rintro rfl; rfl
      · rintro rfl; rfl
    · have h2 : ¬ k = k0 := fun h3 => h h3.symm
      simp [h, h2, ih]

theorem entries_keys_nodup {V : Type} (m : GoMap V) : ((entries m).map Prod.fst).Nodup := by
  induction m with
  | nil => simp [entries]
  | cons e m ih =>
    obtain ⟨k0, v0⟩ := e
    simp only [entries, List.map_cons, List.nodup_cons]
    refine ⟨?_, ?_⟩
    · simp [List.mem_map, List.mem_filter]
    · exact (List.Nodup.sublist ((List.filter_sublist _).map Prod.fst) ih)

theorem keys_nodup {V : Type} (m : GoMap V) : (keys m).Nodup := entries_keys_nodup m

theorem mem_keys_iff {V : Type} (m : GoMap V) (k : String) :
    k ∈ keys m ↔ ∃ v, get? m k = some v := by
  unfold keys
  simp only [List.mem_map, Prod.exists, exists_and_right, exists_eq_right]
  exact exists_congr (fun v => mem_entries_iff m k v)

theorem range_perm {V : Type} (seed : Nat) (m : GoMap V) : (range seed m).Perm (entries m) := by
  unfold range
  simp only
  have hpos : 0 < (entries m).permutations'.length :=
    List.length_pos_of_mem (List.mem_permutations'.2 (List.Perm.refl _))
  have hlt : seed % (entries m).permutations'.length < (entries m).permutations'.length :=
    Nat.mod_lt _ hpos
  rw [List.getD_eq_getElem _ _ hlt]
  exact List.mem_permutations'.1 (List.getElem_mem hlt)

/-- Every ordering of the live bindings is the visiting order of some seed. -/
theorem range_complete {V : Type} (m : GoMap V) (p : List (String × V))
    (hp : p.Perm (entries m)) : ∃ seed, range seed m = p := by
  obtain ⟨i, hi, hget⟩ := List.getElem_of_mem (List.mem_permutations'.2 hp)
  refine ⟨i, ?_⟩
  unfold range
  simp only
  rw [Nat.mod_eq_of_lt hi, List.getD_eq_getElem _ _ hi, hget]

/-- In a list without repeated keys a lookup finds exactly the listed pairs. -/
theorem get?_eq_some_iff_mem {V : Type} (l : GoMap V) (hnd : (l.map Prod.fst).Nodup)
    (k : String) (v : V) : get? l k = some v ↔ (k, v) ∈ l := by
  induction l with
  | nil => simp [get?]
  | cons e l ih =>
    obtain ⟨k0, v0⟩ := e
    simp only [List.map_cons, List.nodup_cons] at hnd
    simp only [get?, List.mem_cons, Prod.mk.injEq]
    by_cases h : k0 = k
    · subst h
      simp only [if_true, Option.some.injEq, true_and]
      constructor
      · rintro rfl; exact Or.inl rfl
      · rintro (h1 | h1)
        · exact h1.symm
        · exact absurd (List.mem_map_of_mem Prod.fst h1) hnd.1
    · have h2 : ¬ k = k0 := fun h3 => h h3.symm
      simp [h, h2, ih hnd.2]

/-- Two lists without repeated keys that are permutations of each other are the
same map. -/
theorem get?_perm {V : Type} (l₁ l₂ : GoMap V) (hp : l₁.Perm l₂)
    (hnd : (l₁.map Prod.fst).Nodup) (k : String) : get? l₁ k = get? l₂ k := by
  have hnd2 : (l₂.map Prod.fst).Nodup := (hp.map Prod.fst).nodup_iff.1 hnd
  apply Option.ext
  intro v
  simp only [Option.mem_def]
  rw [get?_eq_some_iff_mem l₁ hnd, get?_eq_some_iff_mem l₂ hnd2]
  exact hp.mem_iff

theorem get?_entries {V : Type} (m : GoMap V) (k : String) : get? (entries m) k = get? m k := by
  apply Option.ext
  intro v
  simp only [Option.mem_def]
  rw [get?_eq_some_iff_mem _ (entries_keys_nodup m), mem_entries_iff]

end GoMap

namespace GoMap

theorem entries_eq_self {V : Type} (l : GoMap V) (hnd : (l.map Prod.fst).Nodup) :
    entries l = l := by
  induction l with
  | nil => rfl
  | cons e l ih =>
    obtain ⟨k0, v0⟩ := e
    simp only [List.map_cons, List.nodup_cons] at hnd
    simp only [entries, ih hnd.2]
    congr 1
    rw [List.filter_eq_self]
    intro e he
    have hne : e.1 ≠ k0 := fun h => hnd.1 (h ▸ List.mem_map_of_mem Prod.fst he)
    simpa using hne

theorem keys_subset {V : Type} (m : GoMap V) : keys m ⊆ m.map Prod.fst := by
  intro k hk
  obtain ⟨v, hv⟩ := (mem_keys_iff m k).1 hk
  induction m with
  | nil => simp [get?] at hv
  | cons e m ih =>
    obtain ⟨k0, v0⟩ := e
    simp only [get?] at hv
    by_cases h : k0 = k
    · simp [h]
    · simp only [h, if_false] at hv
      have hsub : k ∈ keys m := (mem_keys_iff m k).2 ⟨v, hv⟩
      exact List.mem_cons_of_mem _ (ih hsub hv)

theorem mem_keys_of_mem {V : Type} (m : GoMap V) (e : String × V) (he : e ∈ m) :
    e.1 ∈ keys m := by
  induction m with
  | nil => simp at he
  | cons e0 m ih =>
    obtain ⟨k0, v0⟩ := e0
    rw [mem_keys_iff]
    simp only [get?]
    by_cases h : k0 = e.1
    · exact ⟨v0, by simp [h]⟩
    · simp only [h, if_false]
      rcases List.mem_cons.1 he with h1 | h1
      · exact absurd (by rw [h1]) h
      · exact (mem_keys_iff m e.1).1 (ih h1)

theorem len_le_length {V : Type} (m : GoMap V) : len m ≤ m.length := by
  have h := (List.subperm_of_subset (keys_nodup m) (keys_subset m)).length_le
  simpa [keys, len] using h

theorem len_lt_length {V : Type} (m : GoMap V) (hdup : ¬ (m.map Prod.fst).Nodup) :
    len m < m.length := by
  rcases Nat.lt_or_ge (len m) m.length with h | h
  · exact h
  · exfalso
    apply hdup
    have hsp := List.subperm_of_subset (keys_nodup m) (keys_subset m)
    have hperm : (keys m).Perm (m.map Prod.fst) :=
      hsp.perm_of_length_le (by simpa [keys, len] using h)
    exact hperm.nodup_iff.1 (keys_nodup m)

end GoMap

/-! ## Lemmas on the tag converters -/

namespace servicecatalog

theorem foldl_append_singleton {α β : Type} (f : α → β) (l : List α) (acc : List β) :
    l.foldl (fun result e => result ++ [f e]) acc = acc ++ l.map f := by
  induction l generalizing acc with
  | nil => simp
  | cons a l ih => simp [List.foldl, ih]

theorem Tags_eq (seed : Nat) (tags : tftags.KeyValueTags) :
    Tags seed tags = some ((GoMap.range seed tags.Map).map tagOf) := by
  unfold Tags
  rw [foldl_append_singleton (fun e : String × String =>
    (some { Key := aws.String e.1, Value := aws.String e.2 } : Option Tag))]
  rfl

theorem loop_eq (l : List Tag) (m : GoMap (Option String)) :
    KeyValueTags.loop (l.map some) m = some ((l.map bindingOf).reverse ++ m) := by
  induction l generalizing m with
  | nil => simp [KeyValueTags.loop]
  | cons tag l ih =>
    simp only [List.map_cons, KeyValueTags.loop, ih, GoMap.set, List.reverse_cons,
      List.append_assoc, List.singleton_append]
    rfl

theorem KeyValueTags_eq (l : List Tag) :
    KeyValueTags (some (l.map some)) = some ((l.map bindingOf).reverse) := by
  simp [KeyValueTags, Slice.elems, loop_eq, tftags.New]

theorem Map_get? (tags : tftags.KeyValueTags) (k : String) :
    tags.Map.get? k = (GoMap.get? tags k).map aws.StringValue := by
  induction tags with
  | nil => rfl
  | cons e m ih =>
    obtain ⟨k0, v0⟩ := e
    have ih2 : GoMap.get? (List.map (fun e => (e.1, aws.StringValue e.2)) m) k
        = (GoMap.get? m k).map aws.StringValue := ih
    simp only [tftags.KeyValueTags.Map, List.map_cons, GoMap.get?]
    by_cases h : k0 = k
    · simp [h]
    · simp [h, ih2]

end servicecatalog

namespace servicecatalog

theorem Map_bindings_of_tags (R : List (String × String)) :
    tftags.KeyValueTags.Map
      (((R.map (fun e => ({ Key := aws.String e.1, Value := aws.String e.2 } : Tag))).map
          bindingOf).reverse) = R.reverse := by
  simp only [tftags.KeyValueTags.Map, List.map_reverse, List.map_map]
  congr 1
  conv_rhs => rw [← List.map_id R]
  apply List.map_congr_left
  intro e _
  simp [bindingOf, aws.String, aws.StringValue]

end servicecatalog

/-! ## Tag converters: the properties -/

/-- C1: for every tag container `t` and every order in which `Tags` visits its
entries, `KeyValueTags(Tags(t))` is built without a panic and its `Map()` is
the same map as `t.Map()`: the same keys, and the same string for every key. -/
theorem C1_roundtrip_generic (seed : Nat) (t : tftags.KeyValueTags) :
    ∃ t2, servicecatalog.KeyValueTags (servicecatalog.Tags seed t) = some t2 ∧
      (∀ k, k ∈ t2.Map.keys ↔ k ∈ t.Map.keys) ∧
      (∀ k, t2.Map.get? k = t.Map.get? k) ∧
      t2.Map.len = t.Map.len := by
  have hperm := GoMap.range_perm seed t.Map
  have hnd : ((GoMap.range seed t.Map).map Prod.fst).Nodup :=
    (hperm.map Prod.fst).nodup_iff.2 (GoMap.entries_keys_nodup _)
  have htags : (GoMap.range seed t.Map).map servicecatalog.tagOf
      = ((GoMap.range seed t.Map).map
          (fun e => ({ Key := aws.String e.1, Value := aws.String e.2 } : servicecatalog.Tag))).map
          some := by
    simp [servicecatalog.tagOf]
  refine ⟨_, by rw [servicecatalog.Tags_eq, htags, servicecatalog.KeyValueTags_eq], ?_⟩
  have hmap := servicecatalog.Map_bindings_of_tags (GoMap.range seed t.Map)
  rw [hmap]
  have hnd2 : ((GoMap.range seed t.Map).reverse.map Prod.fst).Nodup := by
    rw [List.map_reverse]; exact List.nodup_reverse.2 hnd
  have hperm2 : (GoMap.range seed t.Map).reverse.Perm (GoMap.entries t.Map) :=
    (List.reverse_perm _).trans hperm
  have hget : ∀ k, GoMap.get? (GoMap.range seed t.Map).reverse k = GoMap.get? t.Map k := by
    intro k
    rw [GoMap.get?_perm _ _ hperm2 hnd2 k, GoMap.get?_entries]
  refine ⟨?_, hget, ?_⟩
  · intro k
    rw [GoMap.mem_keys_iff, GoMap.mem_keys_iff, hget]
  · unfold GoMap.len
    rw [GoMap.entries_eq_self _ hnd2]
    exact hperm2.length_eq

/-- C2: for every tag container `t` and every visiting order, `Tags(t)` is a
non-nil list with one entry per key of `t.Map()`: its length is the number of
keys, every entry is non-nil with non-nil `Key` and `Value`, no key occurs
twice, and `(k, v)` occurs exactly when `t.Map()` maps `k` to `v`; it is the
empty list for a container without keys. -/
theorem C2_tags_shape (seed : Nat) (t : tftags.KeyValueTags) :
    ∃ r, servicecatalog.Tags seed t = some r ∧
      r.length = t.Map.len ∧
      (∀ e ∈ r, ∃ k v, e = some { Key := some k, Value := some v }) ∧
      (r.map (fun e => e.bind servicecatalog.Tag.Key)).Nodup ∧
      (∀ k v, some { Key := some k, Value := some v } ∈ r ↔ t.Map.get? k = some v) ∧
      (t.Map.len = 0 → r = []) := by
  have hperm := GoMap.range_perm seed t.Map
  refine ⟨_, servicecatalog.Tags_eq seed t, ?_, ?_, ?_, ?_, ?_⟩
  · simp [GoMap.len, hperm.length_eq]
  · intro e he
    obtain ⟨⟨k, v⟩, _, rfl⟩ := List.mem_map.1 he
    exact ⟨k, v, rfl⟩
  · have hnd : ((GoMap.range seed t.Map).map Prod.fst).Nodup :=
      (hperm.map Prod.fst).nodup_iff.2 (GoMap.entries_keys_nodup _)
    have hinj : Function.Injective (fun k : String => (some k : Option String)) :=
      fun a b h => Option.some.inj h
    have h2 := hnd.map hinj
    simpa [List.map_map, Function.comp_def, servicecatalog.tagOf, aws.String] using h2
  · intro k v
    rw [← GoMap.mem_entries_iff, ← hperm.mem_iff]
    simp [servicecatalog.tagOf, aws.String]
  · intro h0
    have hlen : (GoMap.range seed t.Map).length = 0 := by
      rw [hperm.length_eq]; exact h0
    simp [List.length_eq_zero.1 hlen]

/-- C3: for every list `l` of non-nil service tags with non-nil, pairwise
distinct keys and non-nil values, and every visiting order,
`Tags(KeyValueTags(l))` is a permutation of `l`, tags being compared by their
key and value strings. -/
theorem C3_roundtrip_vendor (seed : Nat) (l : List servicecatalog.Tag)
    (hkey : ∀ tag ∈ l, tag.Key ≠ none) (hval : ∀ tag ∈ l, tag.Value ≠ none)
    (hdistinct : (l.map servicecatalog.Tag.Key).Nodup) :
    ∃ kv r, servicecatalog.KeyValueTags (some (l.map some)) = some kv ∧
      servicecatalog.Tags seed kv = some r ∧
      r.Perm (l.map some) := by
  refine ⟨_, _, servicecatalog.KeyValueTags_eq l, servicecatalog.Tags_eq seed _, ?_⟩
  have hmap : tftags.KeyValueTags.Map ((l.map servicecatalog.bindingOf).reverse)
      = (l.map (fun tag => (aws.StringValue tag.Key, aws.StringValue tag.Value))).reverse := by
    simp [tftags.KeyValueTags.Map, List.map_reverse, List.map_map, Function.comp_def,
      servicecatalog.bindingOf]
  rw [hmap]
  have hkeys : (l.map (fun tag => aws.StringValue tag.Key)).Nodup := by
    have h2 : l.map (fun tag => aws.StringValue tag.Key)
        = (l.map servicecatalog.Tag.Key).map aws.StringValue := by
      simp [List.map_map, Function.comp_def]
    rw [h2]
    apply List.Nodup.map_on _ hdistinct
    intro a ha b hb hab
    obtain ⟨ta, hta, rfl⟩ := List.mem_map.1 ha
    obtain ⟨tb, htb, rfl⟩ := List.mem_map.1 hb
    have h3 := hkey ta hta
    have h4 := hkey tb htb
    cases hka : ta.Key with
    | none => exact absurd hka h3
    | some x =>
      cases hkb : tb.Key with
      | none => exact absurd hkb h4
      | some y =>
        rw [hka, hkb] at hab
        simp only [aws.StringValue] at hab
        rw [hab]
  have hnd : (((l.map (fun tag : servicecatalog.Tag =>
      (aws.StringValue tag.Key, aws.StringValue tag.Value))).reverse).map Prod.fst).Nodup := by
    rw [List.map_reverse, List.map_map]
    exact List.nodup_reverse.2 hkeys
  have hperm := GoMap.range_perm seed ((l.map (fun tag : servicecatalog.Tag =>
      (aws.StringValue tag.Key, aws.StringValue tag.Value))).reverse)
  rw [GoMap.entries_eq_self _ hnd] at hperm
  have hperm2 := (hperm.trans (List.reverse_perm _)).map servicecatalog.tagOf
  refine hperm2.trans ?_
  rw [List.map_map]
  apply List.Perm.of_eq
  apply List.map_congr_left
  intro tag htag
  have h3 := hkey tag htag
  have h4 := hval tag htag
  obtain ⟨key, val⟩ := tag
  cases key with
  | none => exact absurd rfl h3
  | some x =>
    cases val with
    | none => exact absurd rfl h4
    | some y => rfl

/-- The witness of C3: the two-tag list `a = 1, b = 2`. -/
theorem C3_roundtrip_vendor_witness :
    ∃ kv r, servicecatalog.KeyValueTags (some
        ([{ Key := some "a", Value := some "1" }, { Key := some "b", Value := some "2" }].map
          some)) = some kv ∧
      servicecatalog.Tags 1 kv = some r ∧
      r.Perm (([{ Key := some "a", Value := some "1" }, { Key := some "b", Value := some "2" }] :
        List servicecatalog.Tag).map some) :=
  C3_roundtrip_vendor 1
    [{ Key := some "a", Value := some "1" }, { Key := some "b", Value := some "2" }]
    (by decide) (by decide) (by decide)

theorem GoMap.mem_keys_iff_mem_map {V : Type} (m : GoMap V) (k : String) :
    k ∈ GoMap.keys m ↔ k ∈ m.map Prod.fst := by
  constructor
  · intro h; exact GoMap.keys_subset m h
  · intro h
    obtain ⟨e, he, rfl⟩ := List.mem_map.1 h
    exact GoMap.mem_keys_of_mem m e he

theorem GoMap.get?_append_of_not_mem {V : Type} (a b : GoMap V) (k : String)
    (hk : k ∉ a.map Prod.fst) : GoMap.get? (a ++ b) k = GoMap.get? b k := by
  induction a with
  | nil => rfl
  | cons e a ih =>
    obtain ⟨k0, v0⟩ := e
    simp only [List.map_cons, List.mem_cons, not_or] at hk
    have h : ¬ k0 = k := fun h => hk.1 h.symm
    simp only [List.cons_append, GoMap.get?, h, if_false]
    exact ih hk.2

theorem servicecatalog.Map_bindings (l : List servicecatalog.Tag) :
    tftags.KeyValueTags.Map ((l.map servicecatalog.bindingOf).reverse)
      = (l.map (fun tag => (aws.StringValue tag.Key, aws.StringValue tag.Value))).reverse := by
  simp [tftags.KeyValueTags.Map, List.map_reverse, List.map_map, Function.comp_def,
    servicecatalog.bindingOf]

/-- C4: for every list `l` of non-nil service tags, `KeyValueTags(l)` is built
without a panic; the keys of its `Map()` are exactly the
`aws.StringValue(tag.Key)` of the tags of `l`; the key of a tag that no later
tag of `l` repeats maps to `aws.StringValue` of that tag's value (the last tag
carrying a key wins); and the map has at most `len(l)` keys, fewer when a key
repeats. -/
theorem C4_keyValueTags_last_wins (l : List servicecatalog.Tag) :
    ∃ kv, servicecatalog.KeyValueTags (some (l.map some)) = some kv ∧
      (∀ k, k ∈ kv.Map.keys ↔ ∃ tag ∈ l, aws.StringValue tag.Key = k) ∧
      (∀ l1 tag l2, l = l1 ++ tag :: l2 →
        (∀ later ∈ l2, aws.StringValue later.Key ≠ aws.StringValue tag.Key) →
        kv.Map.get? (aws.StringValue tag.Key) = some (aws.StringValue tag.Value)) ∧
      kv.Map.len ≤ l.length ∧
      (¬ (l.map (fun tag => aws.StringValue tag.Key)).Nodup → kv.Map.len < l.length) := by
  refine ⟨_, servicecatalog.KeyValueTags_eq l, ?_, ?_, ?_, ?_⟩
  · intro k
    rw [servicecatalog.Map_bindings, GoMap.mem_keys_iff_mem_map]
    simp [List.map_reverse, List.map_map, Function.comp_def]
  · intro l1 tag l2 hl hlast
    rw [servicecatalog.Map_bindings, hl]
    simp only [List.map_append, List.map_cons, List.reverse_append, List.reverse_cons,
      List.append_assoc, List.singleton_append]
    rw [GoMap.get?_append_of_not_mem]
    · simp [GoMap.get?]
    · intro hmem
      simp only [List.map_reverse, List.map_map, List.mem_reverse, List.mem_map,
        Function.comp_def] at hmem
      obtain ⟨later, hlater, hk⟩ := hmem
      exact hlast later hlater hk
  · have h := GoMap.len_le_length
      (tftags.KeyValueTags.Map ((l.map servicecatalog.bindingOf).reverse))
    rw [servicecatalog.Map_bindings] at h ⊢
    simpa using h
  · intro hdup
    rw [servicecatalog.Map_bindings]
    have h := GoMap.len_lt_length
      ((l.map (fun tag : servicecatalog.Tag =>
        (aws.StringValue tag.Key, aws.StringValue tag.Value))).reverse)
      (by
        rw [List.map_reverse, List.map_map, List.nodup_reverse]
        exact hdup)
    simpa using h

/-! ## Schema builders: the properties -/

/-- C5: every call of `destinationSchema` returns the same descriptor: a list
that is required, neither optional nor computed, with `MaxItems = 1`, whose
element is a nested resource with the single attribute `destination_ref_id`, a
required string. -/
theorem C5_destinationSchema (call other : Unit) :
    medialive.destinationSchema call = medialive.destinationSchema other ∧
    (medialive.destinationSchema call).Type_ = schema.ValueType.TypeList ∧
    (medialive.destinationSchema call).Required = true ∧
    (medialive.destinationSchema call).Optional = false ∧
    (medialive.destinationSchema call).Computed = false ∧
    (medialive.destinationSchema call).MaxItems = 1 ∧
    ∃ r attr, (medialive.destinationSchema call).Elem = some (schema.ElemOf.Resource r) ∧
      r.Schema = [("destination_ref_id", attr)] ∧
      r.attributes = ["destination_ref_id"] ∧
      attr.Type_ = schema.ValueType.TypeString ∧
      attr.Required = true ∧ attr.Optional = false ∧ attr.Computed = false :=
  ⟨rfl, rfl, rfl, rfl, rfl, rfl, _, _, rfl, rfl, rfl, rfl, rfl, rfl, rfl⟩

/-- C6: on every call, `connectionRetryIntervalSchema`,
`filecacheDurationSchema`, `numRetriesSchema` and `restartDelaySchema` return
one and the same descriptor: an integer that is optional and computed, not
required, without a nested element and without item limits. -/
theorem C6_integer_schemas (call : Unit) :
    (medialive.connectionRetryIntervalSchema call).Type_ = schema.ValueType.TypeInt ∧
    (medialive.connectionRetryIntervalSchema call).Optional = true ∧
    (medialive.connectionRetryIntervalSchema call).Computed = true ∧
    (medialive.connectionRetryIntervalSchema call).Required = false ∧
    (medialive.connectionRetryIntervalSchema call).Elem = none ∧
    (medialive.connectionRetryIntervalSchema call).MaxItems = 0 ∧
    (medialive.connectionRetryIntervalSchema call).MinItems = 0 ∧
    (∀ other, medialive.filecacheDurationSchema other
      = medialive.connectionRetryIntervalSchema call) ∧
    (∀ other, medialive.numRetriesSchema other = medialive.connectionRetryIntervalSchema call) ∧
    (∀ other, medialive.restartDelaySchema other = medialive.connectionRetryIntervalSchema call) ∧
    (∀ other, medialive.connectionRetryIntervalSchema other
      = medialive.connectionRetryIntervalSchema call) :=
  ⟨rfl, rfl, rfl, rfl, rfl, rfl, rfl, fun _ => rfl, fun _ => rfl, fun _ => rfl, fun _ => rfl⟩

/-! ## Error classification: lemmas -/

theorem strings.hasInfix_nil (l : List Char) : strings.hasInfix [] l = true := by
  cases l <;> simp [strings.hasInfix, List.isPrefixOf]

theorem strings.Contains_empty (s : String) : strings.Contains s "" = true := by
  unfold strings.Contains
  exact strings.hasInfix_nil _

theorem tfawserr.ErrMessageContains_nil (code message : String) :
    tfawserr.ErrMessageContains none code message = false := rfl

theorem tfawserr.ErrMessageContains_other (text code message : String) :
    tfawserr.ErrMessageContains (some (GoError.other text)) code message = false := rfl

theorem tfawserr.ErrMessageContains_aws (c m code message : String) :
    tfawserr.ErrMessageContains (some (GoError.aws c m)) code message
      = (decide (c = code) && strings.Contains m message) := rfl

theorem tfawserr.ErrMessageContains_code (err : Option GoError) (code : String) :
    tfawserr.ErrMessageContains err code "" = true ↔ ∃ m, err = some (GoError.aws code m) := by
  cases err with
  | none => simp [tfawserr.ErrMessageContains]
  | some e =>
    cases e with
    | aws c m =>
      simp only [tfawserr.ErrMessageContains_aws, strings.Contains_empty, Bool.and_true,
        decide_eq_true_eq, Option.some.injEq, GoError.aws.injEq]
      constructor
      · intro h; exact ⟨m, h, rfl⟩
      · rintro ⟨_, h, _⟩; exact h
    | other t => simp [tfawserr.ErrMessageContains]

/-! ## Error classification: the properties -/

/-- C7: the function the transit-gateway sweeper hands to the retry helper
turns the error of its `DeleteTransitGateway` call into exactly one of three
results. It is retryable (carrying that error) exactly when the error has code
`IncorrectState` and a message containing one of the three attachment texts; it
is nil exactly when there is no error or the code is
`InvalidTransitGatewayID.NotFound`; it is non-retryable (carrying that error)
exactly in the remaining cases. -/
theorem C7_delete_callback_classification (env : Env) (input : ec2.DeleteTransitGatewayInput)
    (tr : Trace) :
    ((∃ e, (testSweepEc2TransitGateways.callback env input tr).1
          = some { Err := e, Retryable := true }) ↔
      ∃ m, env.DeleteTransitGateway tr input = some (GoError.aws "IncorrectState" m) ∧
        (strings.Contains m "has non-deleted Transit Gateway Attachments" = true ∨
         strings.Contains m "has non-deleted DirectConnect Gateway Attachments" = true ∨
         strings.Contains m "has non-deleted VPN Attachments" = true)) ∧
    ((testSweepEc2TransitGateways.callback env input tr).1 = none ↔
      (env.DeleteTransitGateway tr input = none ∨
        ∃ m, env.DeleteTransitGateway tr input
          = some (GoError.aws "InvalidTransitGatewayID.NotFound" m))) ∧
    ((∃ e, (testSweepEc2TransitGateways.callback env input tr).1
          = some { Err := e, Retryable := false }) ↔
      (¬ (∃ m, env.DeleteTransitGateway tr input = some (GoError.aws "IncorrectState" m) ∧
          (strings.Contains m "has non-deleted Transit Gateway Attachments" = true ∨
           strings.Contains m "has non-deleted DirectConnect Gateway Attachments" = true ∨
           strings.Contains m "has non-deleted VPN Attachments" = true)) ∧
        ¬ (env.DeleteTransitGateway tr input = none ∨
          ∃ m, env.DeleteTransitGateway tr input
            = some (GoError.aws "InvalidTransitGatewayID.NotFound" m)))) ∧
    (∀ r, (testSweepEc2TransitGateways.callback env input tr).1 = some r →
      env.DeleteTransitGateway tr input = some r.Err) := by
  simp only [testSweepEc2TransitGateways.callback]
  generalize env.DeleteTransitGateway tr input = err
  cases err with
  | none => simp [testSweepEc2TransitGateways.classify, tfawserr.ErrMessageContains]
  | some e =>
    cases e with
    | other t =>
      simp [testSweepEc2TransitGateways.classify, tfawserr.ErrMessageContains,
        resource.NonRetryableError]
    | aws c m =>
      simp only [testSweepEc2TransitGateways.classify, tfawserr.ErrMessageContains_aws,
        strings.Contains_empty, Bool.and_true]
      by_cases hc : c = "IncorrectState"
      · subst hc
        cases h1 : strings.Contains m "has non-deleted Transit Gateway Attachments" <;>
        cases h2 : strings.Contains m "has non-deleted DirectConnect Gateway Attachments" <;>
        cases h3 : strings.Contains m "has non-deleted VPN Attachments" <;>
        simp [h1, h2, h3, resource.RetryableError, resource.NonRetryableError]
      · by_cases hn : c = "InvalidTransitGatewayID.NotFound"
        · subst hn
          simp [resource.RetryableError, resource.NonRetryableError]
        · simp [hc, hn, resource.RetryableError, resource.NonRetryableError]

/-- C8: `testAccPreCheckTransitGateway` makes one `DescribeTransitGateways` call
and its error decides among three outcomes: the test is skipped exactly when
the error is a pre-check skip error or has code `InvalidAction`, whatever its
message; it fails fatally exactly when the error is non-nil and not of that
class; it proceeds exactly when the error is nil. The helper
`acctest.PreCheckSkipError` is a parameter, taken not to flag the nil error. -/
theorem C8_precheck_outcomes (env : Env) (tr : Trace)
    (hnil : env.PreCheckSkipError none = false) :
    (testAccPreCheckTransitGateway env tr).2
      = tr ++ [ec2.Call.DescribeTransitGateways { MaxResults := some 5 }] ∧
    ((∃ msg, (testAccPreCheckTransitGateway env tr).1 = testing.Outcome.skipped msg) ↔
      (env.PreCheckSkipError
          (errOf (env.DescribeTransitGateways tr { MaxResults := some 5 })) = true ∨
        ∃ m, errOf (env.DescribeTransitGateways tr { MaxResults := some 5 })
          = some (GoError.aws "InvalidAction" m))) ∧
    ((∃ msg, (testAccPreCheckTransitGateway env tr).1 = testing.Outcome.fatal msg) ↔
      (errOf (env.DescribeTransitGateways tr { MaxResults := some 5 }) ≠ none ∧
        ¬ (env.PreCheckSkipError
            (errOf (env.DescribeTransitGateways tr { MaxResults := some 5 })) = true ∨
          ∃ m, errOf (env.DescribeTransitGateways tr { MaxResults := some 5 })
            = some (GoError.aws "InvalidAction" m)))) ∧
    ((testAccPreCheckTransitGateway env tr).1 = testing.Outcome.proceeds ↔
      errOf (env.DescribeTransitGateways tr { MaxResults := some 5 }) = none) := by
  simp only [testAccPreCheckTransitGateway]
  generalize errOf (env.DescribeTransitGateways tr { MaxResults := some 5 }) = err
  have hcode := tfawserr.ErrMessageContains_code err "InvalidAction"
  cases hs : env.PreCheckSkipError err <;>
  cases hc : tfawserr.ErrMessageContains err "InvalidAction" ""
  · have hno : ¬ ∃ m, err = some (GoError.aws "InvalidAction" m) := by
      rw [← hcode, hc]; simp
    cases err with
    | none => simp
    | some e =>
      have hno2 : ∀ x, ¬ e = GoError.aws "InvalidAction" x := fun x hx => hno ⟨x, by rw [hx]⟩
      simp [hno2]
  · have hyes : ∃ m, err = some (GoError.aws "InvalidAction" m) := hcode.1 hc
    obtain ⟨m, rfl⟩ := hyes
    simp
  · have hno : ¬ ∃ m, err = some (GoError.aws "InvalidAction" m) := by
      rw [← hcode, hc]; simp
    cases err with
    | none => rw [hnil] at hs; exact absurd hs (by simp)
    | some e => simp
  · have hyes : ∃ m, err = some (GoError.aws "InvalidAction" m) := hcode.1 hc
    obtain ⟨m, rfl⟩ := hyes
    simp

/-- The witness of C8: in the reference environment the call succeeds and the
test proceeds. -/
theorem C8_precheck_outcomes_witness :
    Env.sample.PreCheckSkipError none = false ∧
    ((testAccPreCheckTransitGateway Env.sample []).2
      = [] ++ [ec2.Call.DescribeTransitGateways { MaxResults := some 5 }] ∧
    ((∃ msg, (testAccPreCheckTransitGateway Env.sample []).1 = testing.Outcome.skipped msg) ↔
      (Env.sample.PreCheckSkipError
          (errOf (Env.sample.DescribeTransitGateways [] { MaxResults := some 5 })) = true ∨
        ∃ m, errOf (Env.sample.DescribeTransitGateways [] { MaxResults := some 5 })
          = some (GoError.aws "InvalidAction" m))) ∧
    ((∃ msg, (testAccPreCheckTransitGateway Env.sample []).1 = testing.Outcome.fatal msg) ↔
      (errOf (Env.sample.DescribeTransitGateways [] { MaxResults := some 5 }) ≠ none ∧
        ¬ (Env.sample.PreCheckSkipError
            (errOf (Env.sample.DescribeTransitGateways [] { MaxResults := some 5 })) = true ∨
          ∃ m, errOf (Env.sample.DescribeTransitGateways [] { MaxResults := some 5 })
            = some (GoError.aws "InvalidAction" m)))) ∧
    ((testAccPreCheckTransitGateway Env.sample []).1 = testing.Outcome.proceeds ↔
      errOf (Env.sample.DescribeTransitGateways [] { MaxResults := some 5 }) = none)) :=
  ⟨rfl, C8_precheck_outcomes Env.sample [] rfl⟩

/-! ## Internet gateway sweeper: lemmas -/

theorem deleteInternetGatewayInputs_append (a b : Trace) :
    deleteInternetGatewayInputs (a ++ b)
      = deleteInternetGatewayInputs a ++ deleteInternetGatewayInputs b := by
  simp [deleteInternetGatewayInputs, List.filterMap_append]

/-- When detaching and waiting always succeed, the loop over the attachments of
a gateway ends by `break` or at its end, and deletes nothing. -/
theorem testSweepInternetGateways.attachments_ok (env : Env)
    (internetGateway : ec2.InternetGateway) (defaultVPCID : String)
    (hdetach : ∀ tr input, env.DetachInternetGateway tr input = none)
    (hwait : ∀ tr conf, env.WaitForState tr conf = none)
    (atts : List ec2.InternetGatewayAttachment) (tr : Trace) :
    (testSweepInternetGateways.attachments env internetGateway defaultVPCID atts tr).1
      = (if atts.all (fun attachment => decide (aws.StringValue attachment.VpcId ≠ defaultVPCID))
          then testSweepInternetGateways.AttachmentsEnd.completed
          else testSweepInternetGateways.AttachmentsEnd.isDefaultVPCInternetGateway) ∧
    deleteInternetGatewayInputs
        (testSweepInternetGateways.attachments env internetGateway defaultVPCID atts tr).2
      = deleteInternetGatewayInputs tr := by
  induction atts generalizing tr with
  | nil => simp [testSweepInternetGateways.attachments]
  | cons attachment rest ih =>
    by_cases h : aws.StringValue attachment.VpcId = defaultVPCID
    · simp [testSweepInternetGateways.attachments, h]
    · simp only [testSweepInternetGateways.attachments, h, if_false, hdetach, hwait]
      refine ⟨?_, ?_⟩
      · rw [(ih _).1]
        simp [h]
      · rw [(ih _).2]
        simp [deleteInternetGatewayInputs, List.filterMap_append]

/-- When every call succeeds, the loop over the gateways returns nil and deletes
exactly the gateways without an attachment to the default VPC, in order. -/
theorem testSweepInternetGateways.gateways_loop_succeeds (env : Env) (defaultVPCID : String)
    (hdetach : ∀ tr input, env.DetachInternetGateway tr input = none)
    (hwait : ∀ tr conf, env.WaitForState tr conf = none)
    (hdelete : ∀ tr input, env.DeleteInternetGateway tr input = none)
    (gws : List ec2.InternetGateway) (tr : Trace) :
    (testSweepInternetGateways.gateways env defaultVPCID gws tr).1 = none ∧
    deleteInternetGatewayInputs (testSweepInternetGateways.gateways env defaultVPCID gws tr).2
      = deleteInternetGatewayInputs tr ++
        (gws.filter (notAttachedTo defaultVPCID)).map
          (fun gw => { InternetGatewayId := gw.InternetGatewayId }) := by
  induction gws generalizing tr with
  | nil => simp [testSweepInternetGateways.gateways]
  | cons gw rest ih =>
    have hatt := testSweepInternetGateways.attachments_ok env gw defaultVPCID hdetach hwait
      gw.Attachments tr
    rw [testSweepInternetGateways.gateways]
    generalize testSweepInternetGateways.attachments env gw defaultVPCID gw.Attachments tr
      = res at hatt
    obtain ⟨ending, tr1⟩ := res
    obtain ⟨hend, htr⟩ := hatt
    simp only at hend htr
    by_cases hall : gw.Attachments.all
        (fun attachment => decide (aws.StringValue attachment.VpcId ≠ defaultVPCID)) = true
    · rw [if_pos hall] at hend
      subst hend
      simp only [hdelete]
      refine ⟨(ih _).1, ?_⟩
      rw [(ih _).2, deleteInternetGatewayInputs_append, htr]
      have hkeep : notAttachedTo defaultVPCID gw = true := hall
      simp [List.filter_cons, hkeep, deleteInternetGatewayInputs]
    · rw [if_neg hall] at hend
      subst hend
      simp only
      refine ⟨(ih _).1, ?_⟩
      rw [(ih _).2, htr]
      have hdrop : ¬ notAttachedTo defaultVPCID gw = true := hall
      simp [List.filter_cons, hdrop]

/-! ## Internet gateway sweeper: the properties -/

/-- C9: when every call of the internet-gateway sweeper succeeds, it returns nil
and its `DeleteInternetGateway` calls are, in listing order and once each, those
for the listed gateways none of whose attachments has the default VPC id. The
default VPC id is the id of the VPC when `DescribeVpcs` with the `isDefault`
filter returns exactly one, and the empty string otherwise. -/
theorem C9_internet_gateway_sweeper (env : Env) (region : String)
    (gws : List ec2.InternetGateway) (vpcs : Option ec2.DescribeVpcsOutput)
    (hclient : env.SharedRegionalSweeperClient region = none)
    (hdescribe : env.DescribeInternetGateways [] {} = Except.ok { InternetGateways := gws })
    (hvpcs : ∀ tr, env.DescribeVpcs tr
      { Filters := some [{ Name := some "isDefault", Values := [some "true"] }] } = Except.ok vpcs)
    (hdetach : ∀ tr input, env.DetachInternetGateway tr input = none)
    (hwait : ∀ tr conf, env.WaitForState tr conf = none)
    (hdelete : ∀ tr input, env.DeleteInternetGateway tr input = none) :
    (testSweepInternetGateways env region).1 = none ∧
    deleteInternetGatewayInputs (testSweepInternetGateways env region).2
      = (gws.filter (notAttachedTo (testSweepInternetGateways.defaultVPCID vpcs))).map
          (fun gw => { InternetGatewayId := gw.InternetGatewayId }) ∧
    (∀ vpc, vpcs = some { Vpcs := [vpc] } →
      testSweepInternetGateways.defaultVPCID vpcs = aws.StringValue vpc.VpcId) ∧
    (∀ output, vpcs = some output → output.Vpcs.length ≠ 1 →
      testSweepInternetGateways.defaultVPCID vpcs = "") ∧
    (vpcs = none → testSweepInternetGateways.defaultVPCID vpcs = "") ∧
    (∀ defaultVPCID gw, gw.Attachments = [] → notAttachedTo defaultVPCID gw = true) ∧
    (∀ defaultVPCID gw, (∃ attachment ∈ gw.Attachments,
        aws.StringValue attachment.VpcId = defaultVPCID) →
      notAttachedTo defaultVPCID gw = false) := by
  refine ⟨?_, ?_, ?_, ?_, ?_, ?_, ?_⟩
  · unfold testSweepInternetGateways
    simp only [hclient, hdescribe]
    by_cases hempty : gws.length = 0
    · simp [hempty]
    · simp only [hempty, if_false]
      have hv := hvpcs [ec2.Call.DescribeInternetGateways {}]
      simp only [aws.String, aws.StringSlice, List.map] at hv ⊢
      rw [hv]
      exact (testSweepInternetGateways.gateways_loop_succeeds env _ hdetach hwait hdelete gws _).1
  · unfold testSweepInternetGateways
    simp only [hclient, hdescribe]
    by_cases hempty : gws.length = 0
    · have hnil : gws = [] := List.length_eq_zero.1 hempty
      simp [hnil, deleteInternetGatewayInputs]
    · simp only [hempty, if_false]
      have hv := hvpcs [ec2.Call.DescribeInternetGateways {}]
      simp only [aws.String, aws.StringSlice, List.map] at hv ⊢
      rw [hv]
      rw [(testSweepInternetGateways.gateways_loop_succeeds env _ hdetach hwait hdelete gws _).2]
      simp [deleteInternetGatewayInputs]
  · rintro vpc rfl
    rfl
  · rintro output rfl hlen
    obtain ⟨l⟩ := output
    match l, hlen with
    | [], _ => rfl
    | [_], h => exact absurd rfl h
    | _ :: _ :: _, _ => rfl
  · rintro rfl
    rfl
  · intro d gw hnil
    simp [notAttachedTo, hnil]
  · rintro d gw ⟨attachment, hmem, hid⟩
    rw [Bool.eq_false_iff]
    intro hall
    simp only [notAttachedTo, List.all_eq_true, decide_eq_true_eq] at hall
    exact hall attachment hmem hid

/-- The witness of C9: the reference environment, where `igw-a` is attached to
the default VPC. -/
theorem C9_internet_gateway_sweeper_witness :
    (Env.sample.SharedRegionalSweeperClient "us-west-2" = none ∧
     Env.sample.DescribeInternetGateways [] {}
       = Except.ok { InternetGateways := Env.sampleInternetGateways } ∧
     (∀ tr, Env.sample.DescribeVpcs tr
       { Filters := some [{ Name := some "isDefault", Values := [some "true"] }] }
       = Except.ok (some { Vpcs := [{ VpcId := some "vpc-0" }] })) ∧
     (∀ tr input, Env.sample.DetachInternetGateway tr input = none) ∧
     (∀ tr conf, Env.sample.WaitForState tr conf = none) ∧
     (∀ tr input, Env.sample.DeleteInternetGateway tr input = none)) ∧
    (testSweepInternetGateways Env.sample "us-west-2").1 = none ∧
    deleteInternetGatewayInputs (testSweepInternetGateways Env.sample "us-west-2").2
      = [{ InternetGatewayId := some "igw-b" }, { InternetGatewayId := some "igw-c" }] :=
  ⟨⟨rfl, rfl, fun _ => rfl, fun _ _ => rfl, fun _ _ => rfl, fun _ _ => rfl⟩,
    (C9_internet_gateway_sweeper Env.sample "us-west-2" Env.sampleInternetGateways
      (some { Vpcs := [{ VpcId := some "vpc-0" }] })
      rfl rfl (fun _ => rfl) (fun _ _ => rfl) (fun _ _ => rfl) (fun _ _ => rfl)).1,
    by decide⟩

/-! ## Transit gateway sweeper: lemmas -/

theorem testSweepEc2TransitGateways.classify_nil :
    testSweepEc2TransitGateways.classify none = none := rfl

/-- When `DeleteTransitGateway` succeeds, `resource.Retry` around the sweeper's
function makes one call and returns nil. -/
theorem testSweepEc2TransitGateways.retry_ok (env : Env)
    (hdelete : ∀ tr input, env.DeleteTransitGateway tr input = none)
    (timeout : Nat) (input : ec2.DeleteTransitGatewayInput) (tr : Trace) :
    resource.Retry env timeout (testSweepEc2TransitGateways.callback env input) tr
      = (none, tr ++ [ec2.Call.DeleteTransitGateway input]) := by
  unfold resource.Retry
  cases env.retryAttempts timeout tr <;>
    simp [resource.Retry.loop, testSweepEc2TransitGateways.callback, hdelete,
      testSweepEc2TransitGateways.classify_nil]

theorem expectedDeletions_nil : expectedDeletions [] = [] := rfl

theorem expectedDeletions_cons_deleted (gw : ec2.TransitGateway)
    (rest : List ec2.TransitGateway) (h : aws.StringValue gw.State = "deleted") :
    expectedDeletions (gw :: rest) = expectedDeletions rest := by
  simp [expectedDeletions, List.filter_cons, h]

theorem expectedDeletions_cons_live (gw : ec2.TransitGateway)
    (rest : List ec2.TransitGateway) (h : ¬ aws.StringValue gw.State = "deleted") :
    expectedDeletions (gw :: rest)
      = ec2.Call.DeleteTransitGateway
          { TransitGatewayId := some (aws.StringValue gw.TransitGatewayId) } ::
        ec2.Call.WaitForTransitGatewayDeletion (aws.StringValue gw.TransitGatewayId) ::
        expectedDeletions rest := by
  simp [expectedDeletions, List.filter_cons, h]

theorem describeTransitGatewaysCount_append (a b : Trace) :
    describeTransitGatewaysCount (a ++ b)
      = describeTransitGatewaysCount a + describeTransitGatewaysCount b := by
  simp [describeTransitGatewaysCount, List.countP_append]

theorem describeTransitGatewaysCount_expectedDeletions (gws : List ec2.TransitGateway) :
    describeTransitGatewaysCount (expectedDeletions gws) = 0 := by
  induction gws with
  | nil => rfl
  | cons gw rest ih =>
    by_cases h : aws.StringValue gw.State = "deleted"
    · rw [expectedDeletions_cons_deleted gw rest h]; exact ih
    · rw [expectedDeletions_cons_live gw rest h]
      simpa [describeTransitGatewaysCount] using ih

/-- When deleting and waiting always succeed and the nil error is not a
timeout, the loop over the gateways of a page makes the expected calls and
runs to its end. -/
theorem testSweepEc2TransitGateways.page_gateways_succeed (env : Env)
    (htimed : env.TimedOut none = false)
    (hdelete : ∀ tr input, env.DeleteTransitGateway tr input = none)
    (hwait : ∀ tr id, env.WaitForTransitGatewayDeletion tr id = none)
    (gws : List ec2.TransitGateway) (tr : Trace) :
    testSweepEc2TransitGateways.gateways env gws tr = (none, tr ++ expectedDeletions gws) := by
  induction gws generalizing tr with
  | nil => simp [testSweepEc2TransitGateways.gateways, expectedDeletions_nil]
  | cons gw rest ih =>
    by_cases h : aws.StringValue gw.State = "deleted"
    · rw [testSweepEc2TransitGateways.gateways, expectedDeletions_cons_deleted gw rest h]
      simp only [ec2.TransitGatewayStateDeleted, h, if_true]
      exact ih tr
    · rw [testSweepEc2TransitGateways.gateways, expectedDeletions_cons_live gw rest h]
      simp only [ec2.TransitGatewayStateDeleted, h, if_false,
        testSweepEc2TransitGateways.retry_ok env hdelete, htimed, hwait, aws.String]
      rw [ih]
      simp

theorem List.getD_append_length_cons {α : Type} (a : List α) (x : α) (b : List α) (d : α) :
    (a ++ x :: b).getD a.length d = x := by
  induction a with
  | nil => rfl
  | cons y a ih => simpa using ih

/-- The page loop, started when the pages `done` have been requested: it
requests the pages up to the first with an empty token and returns nil. -/
theorem testSweepEc2TransitGateways.pages_ok (env : Env)
    (pages : List ec2.DescribeTransitGatewaysOutput)
    (last : ec2.DescribeTransitGatewaysOutput) (rest : List ec2.DescribeTransitGatewaysOutput)
    (hskip : env.SkipSweepError none = false)
    (htimed : env.TimedOut none = false)
    (hdescribe : ∀ tr input, env.DescribeTransitGateways tr input
      = Except.ok (pages.getD (describeTransitGatewaysCount tr) last))
    (hdelete : ∀ tr input, env.DeleteTransitGateway tr input = none)
    (hwait : ∀ tr id, env.WaitForTransitGatewayDeletion tr id = none)
    (hlast : aws.StringValue last.NextToken = "")
    (init : List ec2.DescribeTransitGatewaysOutput) :
    ∀ (done : List ec2.DescribeTransitGatewaysOutput) (tr : Trace) (token : Option String)
      (fuel : Nat),
      pages = done ++ init ++ last :: rest →
      describeTransitGatewaysCount tr = done.length →
      (∀ page ∈ init, aws.StringValue page.NextToken ≠ "") →
      init.length < fuel →
      testSweepEc2TransitGateways.pages env fuel { NextToken := token } tr
        = some (none, tr ++ expectedSweep token (init ++ [last])) := by
  induction init with
  | nil =>
    intro done tr token fuel hpages hcount _ hfuel
    obtain ⟨fuel, rfl⟩ : ∃ f, fuel = f + 1 := ⟨fuel - 1, by simp at hfuel; omega⟩
    have hpage : pages.getD (describeTransitGatewaysCount tr) last = last := by
      rw [hpages, hcount, List.append_nil, List.getD_append_length_cons]
    simp only [testSweepEc2TransitGateways.pages, hdescribe, hpage, errOf, hskip,
      testSweepEc2TransitGateways.page_gateways_succeed env htimed hdelete hwait, hlast]
    simp [expectedSweep]
  | cons page init ih =>
    intro done tr token fuel hpages hcount hinit hfuel
    obtain ⟨fuel, rfl⟩ : ∃ f, fuel = f + 1 := ⟨fuel - 1, by simp at hfuel; omega⟩
    have hpage : pages.getD (describeTransitGatewaysCount tr) last = page := by
      rw [hpages, hcount, List.append_assoc, List.cons_append,
        List.getD_append_length_cons]
    have htoken : ¬ aws.StringValue page.NextToken = "" := hinit page (List.mem_cons_self _ _)
    simp only [testSweepEc2TransitGateways.pages, hdescribe, hpage, errOf, hskip,
      testSweepEc2TransitGateways.page_gateways_succeed env htimed hdelete hwait, htoken]
    simp only [Bool.false_eq_true, if_false]
    rw [ih (done ++ [page]) _ page.NextToken fuel]
    · simp [expectedSweep]
    · rw [hpages]; simp
    · rw [describeTransitGatewaysCount_append, describeTransitGatewaysCount_append,
        describeTransitGatewaysCount_expectedDeletions, hcount]
      simp [describeTransitGatewaysCount]
    · intro p hp; exact hinit p (List.mem_cons_of_mem _ hp)
    · simp at hfuel; omega

/-! ## Transit gateway sweeper: the properties -/

/-- C10: when every call of the transit-gateway sweeper succeeds and the API
returns the pages `init` with non-empty tokens and then the page `last` with a
nil or empty token (and whatever pages `rest` after it), the sweeper, given
room for these pages, returns nil after exactly the expected calls: each page
requested with the token of the page before it, followed for each of its
gateways whose state is not "deleted", in listing order, by one
`DeleteTransitGateway` and the wait for the deletion; no page is requested
after `last`. The helpers `acctest.SkipSweepError` and `tfresource.TimedOut`
are parameters, taken not to flag the nil error. -/
theorem C10_transit_gateway_sweeper (env : Env) (region : String)
    (init : List ec2.DescribeTransitGatewaysOutput) (last : ec2.DescribeTransitGatewaysOutput)
    (rest : List ec2.DescribeTransitGatewaysOutput) (fuel : Nat)
    (hclient : env.SharedRegionalSweeperClient region = none)
    (hskip : env.SkipSweepError none = false)
    (htimed : env.TimedOut none = false)
    (hdescribe : ∀ tr input, env.DescribeTransitGateways tr input
      = Except.ok ((init ++ last :: rest).getD (describeTransitGatewaysCount tr) last))
    (hdelete : ∀ tr input, env.DeleteTransitGateway tr input = none)
    (hwait : ∀ tr id, env.WaitForTransitGatewayDeletion tr id = none)
    (hinit : ∀ page ∈ init, aws.StringValue page.NextToken ≠ "")
    (hlast : aws.StringValue last.NextToken = "")
    (hfuel : init.length < fuel) :
    testSweepEc2TransitGateways env fuel region
      = some (none, expectedSweep none (init ++ [last])) := by
  unfold testSweepEc2TransitGateways
  simp only [hclient]
  have h := testSweepEc2TransitGateways.pages_ok env (init ++ last :: rest) last rest hskip htimed
    hdescribe hdelete hwait hlast init [] [] none fuel (by simp) rfl hinit hfuel
  simpa using h

/-- The witness of C10: the reference environment, with its two pages. -/
theorem C10_transit_gateway_sweeper_witness :
    (Env.sample.SharedRegionalSweeperClient "us-west-2" = none ∧
     Env.sample.SkipSweepError none = false ∧
     Env.sample.TimedOut none = false ∧
     (∀ tr input, Env.sample.DescribeTransitGateways tr input
       = Except.ok (([Env.samplePage] ++ Env.sampleLastPage :: []).getD
           (describeTransitGatewaysCount tr) Env.sampleLastPage)) ∧
     (∀ tr input, Env.sample.DeleteTransitGateway tr input = none) ∧
     (∀ tr id, Env.sample.WaitForTransitGatewayDeletion tr id = none) ∧
     (∀ page ∈ [Env.samplePage], aws.StringValue page.NextToken ≠ "") ∧
     aws.StringValue Env.sampleLastPage.NextToken = "" ∧
     [Env.samplePage].length < 2) ∧
    testSweepEc2TransitGateways Env.sample 2 "us-west-2"
      = some (none,
          [ec2.Call.DescribeTransitGateways { NextToken := none },
           ec2.Call.DeleteTransitGateway { TransitGatewayId := some "tgw-a" },
           ec2.Call.WaitForTransitGatewayDeletion "tgw-a",
           ec2.Call.DescribeTransitGateways { NextToken := some "page-2" },
           ec2.Call.DeleteTransitGateway { TransitGatewayId := some "tgw-c" },
           ec2.Call.WaitForTransitGatewayDeletion "tgw-c"]) :=
  ⟨⟨rfl, rfl, rfl, fun _ _ => rfl, fun _ _ => rfl, fun _ _ => rfl, by decide, rfl, by decide⟩,
    (C10_transit_gateway_sweeper Env.sample "us-west-2" [Env.samplePage] Env.sampleLastPage
      [] 2 rfl rfl rfl (fun _ _ => rfl) (fun _ _ => rfl) (fun _ _ => rfl) (by decide) rfl
      (by decide)).trans (by decide)⟩

/-! ## Test checks: the properties -/

/-- What `testNotEqual` does decide on: with both gateways attached, it returns
its "same" error exactly when the two `VpcId` pointers are identical. -/
theorem TestAccEC2InternetGateway_basic.testNotEqual_iff
    (a b : TestAccEC2InternetGateway_basic.Attachment)
    (rest rest2 : List TestAccEC2InternetGateway_basic.Attachment) :
    TestAccEC2InternetGateway_basic.testNotEqual { Attachments := a :: rest }
        { Attachments := b :: rest2 }
      = (if StringPointer.eq a.VpcId b.VpcId then
          some (fmt.Errorf ["Both attachment IDs are the same"]) else none) := rfl

/-- The "is not attached" errors of `testNotEqual`. -/
theorem TestAccEC2InternetGateway_basic.testNotEqual_not_attached
    (v v2 : TestAccEC2InternetGateway_basic.Gateway) :
    (v.Attachments = [] →
      TestAccEC2InternetGateway_basic.testNotEqual v v2
        = some (fmt.Errorf ["IG A is not attached"])) ∧
    (v.Attachments ≠ [] → v2.Attachments = [] →
      TestAccEC2InternetGateway_basic.testNotEqual v v2
        = some (fmt.Errorf ["IG B is not attached"])) := by
  obtain ⟨l⟩ := v
  obtain ⟨l2⟩ := v2
  constructor
  · rintro h
    simp only at h
    subst h
    rfl
  · intro h h2
    simp only at h h2
    subst h2
    cases l with
    | nil => exact absurd rfl h
    | cons a l => rfl

/-- C11: `testNotEqual` compares the two `VpcId` pointers, not the ids. For two
captured gateways whose first attachments carry the same VPC id `vpc-1` in two
strings of their own, it returns nil instead of the error "Both attachment IDs
are the same". -/
theorem C11_testNotEqual_passes_on_equal_ids :
    TestAccEC2InternetGateway_basic.sameVpcTwice.1.Attachments.length = 1 ∧
    TestAccEC2InternetGateway_basic.sameVpcTwice.2.Attachments.length = 1 ∧
    (TestAccEC2InternetGateway_basic.sameVpcTwice.1.Attachments.map
        (fun a => StringPointer.StringValue a.VpcId)
      = TestAccEC2InternetGateway_basic.sameVpcTwice.2.Attachments.map
        (fun a => StringPointer.StringValue a.VpcId)) ∧
    TestAccEC2InternetGateway_basic.testNotEqual
        TestAccEC2InternetGateway_basic.sameVpcTwice.1
        TestAccEC2InternetGateway_basic.sameVpcTwice.2 = none := by
  decide

/-- C12: of `testAccCheckTransitGatewayNotRecreated(i, j)` and
`testAccCheckTransitGatewayRecreated(i, j)` exactly one returns an error;
`NotRecreated` returns nil exactly when the two ids are equal as
`aws.StringValue` reads them, so also for two nil ids; `NotRecreated(i, i)` is
nil; and both checks are symmetric in `i` and `j`. -/
theorem C12_recreated_complement (i j : ec2.TransitGateway) (s : terraform.State) :
    ((testAccCheckTransitGatewayNotRecreated i j s ≠ none ∧
        testAccCheckTransitGatewayRecreated i j s = none) ∨
      (testAccCheckTransitGatewayNotRecreated i j s = none ∧
        testAccCheckTransitGatewayRecreated i j s ≠ none)) ∧
    (testAccCheckTransitGatewayNotRecreated i j s = none ↔
      aws.StringValue i.TransitGatewayId = aws.StringValue j.TransitGatewayId) ∧
    (i.TransitGatewayId = none → j.TransitGatewayId = none →
      testAccCheckTransitGatewayNotRecreated i j s = none) ∧
    testAccCheckTransitGatewayNotRecreated i i s = none ∧
    testAccCheckTransitGatewayNotRecreated i j s
      = testAccCheckTransitGatewayNotRecreated j i s ∧
    testAccCheckTransitGatewayRecreated i j s = testAccCheckTransitGatewayRecreated j i s := by
  unfold testAccCheckTransitGatewayNotRecreated testAccCheckTransitGatewayRecreated
  refine ⟨?_, ?_, ?_, ?_, ?_, ?_⟩
  · by_cases h : aws.StringValue i.TransitGatewayId = aws.StringValue j.TransitGatewayId
    · right; simp [h]
    · left; simp [h]
  · by_cases h : aws.StringValue i.TransitGatewayId = aws.StringValue j.TransitGatewayId
    · simp [h]
    · simp [h]
  · intro hi hj
    simp [hi, hj]
  · simp
  · by_cases h : aws.StringValue i.TransitGatewayId = aws.StringValue j.TransitGatewayId
    · rw [if_neg (not_not.2 h), if_neg (not_not.2 h.symm)]
    · rw [if_pos h, if_pos (fun h3 => h h3.symm)]
  · by_cases h : aws.StringValue i.TransitGatewayId = aws.StringValue j.TransitGatewayId
    · rw [if_pos h, if_pos h.symm]
    · rw [if_neg h, if_neg (fun h3 => h h3.symm)]

/-- C13: `testAccCheckInternetGatewayDestroy` returns at the first internet
gateway whose describe call succeeds. In the state with `igw-gone` and
`igw-live`, where `igw-live` is still returned by `DescribeInternetGateways`,
the check returns nil when it visits `igw-gone` first, and "still exists" when
it visits `igw-live` first. -/
theorem C13_destroy_check_stops_at_first_gateway :
    (∃ rs resp, GoMap.get? terraform.State.twoInternetGateways.Resources
          "aws_internet_gateway.live" = some rs ∧
        rs.Type_ = "aws_internet_gateway" ∧
        (∀ tr, Env.oneGatewayLeft.DescribeInternetGateways tr
          { InternetGatewayIds := some [aws.String rs.Primary.ID] } = Except.ok resp) ∧
        resp.InternetGateways.length > 0) ∧
    (testAccCheckInternetGatewayDestroy Env.oneGatewayLeft 0
        terraform.State.twoInternetGateways []).1 = none ∧
    (testAccCheckInternetGatewayDestroy Env.oneGatewayLeft 1
        terraform.State.twoInternetGateways []).1 = some (fmt.Errorf ["still exists"]) :=
  ⟨⟨_, _, rfl, rfl, fun _ => rfl, by decide⟩, by decide, by decide⟩

/-- While the answers of `tfec2.DescribeTransitGateway` do not change, the loop
of the destroy check returns an error exactly when one of the resources it is
given is a transit gateway whose answer is an error other than the not-found
one, or a gateway in a state other than "deleted". -/
theorem testAccCheckTransitGatewayDestroy.loop_error_iff (env : Env)
    (answer : String → Except GoError (Option ec2.TransitGateway))
    (hstable : ∀ tr id, env.DescribeTransitGateway tr id = answer id)
    (resources : List (String × terraform.ResourceState)) (tr : Trace) :
    (testAccCheckTransitGatewayDestroy.loop env resources tr).1 ≠ none ↔
      ∃ e ∈ resources, e.2.Type_ = "aws_ec2_transit_gateway" ∧
        ((∃ err, answer e.2.Primary.ID = Except.error err ∧
            ¬ ∃ m, err = GoError.aws "InvalidTransitGatewayID.NotFound" m) ∨
          (∃ gw, answer e.2.Primary.ID = Except.ok (some gw) ∧
            aws.StringValue gw.State ≠ "deleted")) := by
  induction resources generalizing tr with
  | nil => simp [testAccCheckTransitGatewayDestroy.loop]
  | cons e rest ih =>
    obtain ⟨name, rs⟩ := e
    have ih2 : ∀ t, ¬ (testAccCheckTransitGatewayDestroy.loop env rest t).1 = none ↔
        ∃ e ∈ rest, e.2.Type_ = "aws_ec2_transit_gateway" ∧
          ((∃ err, answer e.2.Primary.ID = Except.error err ∧
              ¬ ∃ m, err = GoError.aws "InvalidTransitGatewayID.NotFound" m) ∨
            (∃ gw, answer e.2.Primary.ID = Except.ok (some gw) ∧
              aws.StringValue gw.State ≠ "deleted")) := ih
    rw [testAccCheckTransitGatewayDestroy.loop]
    simp only [List.mem_cons, exists_eq_or_imp]
    by_cases htype : rs.Type_ = "aws_ec2_transit_gateway"
    · simp only [htype, ne_eq, not_true_eq_false, if_false, hstable, true_and]
      have hcode := tfawserr.ErrMessageContains_code (errOf (answer rs.Primary.ID))
        "InvalidTransitGatewayID.NotFound"
      cases hans : answer rs.Primary.ID with
      | error err =>
        rw [hans] at hcode
        simp only [errOf] at hcode ⊢
        by_cases hnf : tfawserr.ErrMessageContains (some err)
            "InvalidTransitGatewayID.NotFound" "" = true
        · obtain ⟨m, hm⟩ := hcode.1 hnf
          have herr : err = GoError.aws "InvalidTransitGatewayID.NotFound" m :=
            Option.some.inj hm
          simp only [hnf, if_true]
          rw [ih2]
          simp [herr]
        · have hno : ¬ ∃ m, err = GoError.aws "InvalidTransitGatewayID.NotFound" m := by
            rintro ⟨m, hm⟩
            exact hnf (hcode.2 ⟨m, by rw [hm]⟩)
          simp only [hnf, Bool.false_eq_true, if_false]
          constructor
          · intro _
            exact Or.inl (Or.inl ⟨err, rfl, hno⟩)
          · intro _
            simp
      | ok found =>
        rw [hans] at hcode
        simp only [errOf, tfawserr.ErrMessageContains_nil, Bool.false_eq_true, if_false]
        cases found with
        | none =>
          simp only []
          rw [ih2]
          simp
        | some gw =>
          by_cases hstate : aws.StringValue gw.State = "deleted"
          · simp only [ec2.TransitGatewayStateDeleted, hstate, ne_eq, not_true_eq_false,
              if_false]
            rw [ih2]
            simp [hstate]
          · simp [ec2.TransitGatewayStateDeleted, hstate]
    · simp only [htype, ne_eq, not_false_eq_true, if_true, false_and, false_or]
      exact ih tr

/-- C14: while the answers of `tfec2.DescribeTransitGateway` do not change,
`testAccCheckTransitGatewayDestroy` returns an error exactly when some resource
of the state of type `aws_ec2_transit_gateway` yields a describe error other
than one with code `InvalidTransitGatewayID.NotFound`, or is described as a
non-nil gateway whose state is not "deleted". Resources of other types play no
part, and the verdict is the same in every visiting order. -/
theorem C14_transit_gateway_destroy_check (env : Env)
    (answer : String → Except GoError (Option ec2.TransitGateway))
    (seed : Nat) (s : terraform.State) (tr : Trace)
    (hstable : ∀ tr id, env.DescribeTransitGateway tr id = answer id) :
    ((testAccCheckTransitGatewayDestroy env seed s tr).1 ≠ none ↔
      ∃ name rs, GoMap.get? s.Resources name = some rs ∧
        rs.Type_ = "aws_ec2_transit_gateway" ∧
        ((∃ err, answer rs.Primary.ID = Except.error err ∧
            ¬ ∃ m, err = GoError.aws "InvalidTransitGatewayID.NotFound" m) ∨
          (∃ gw, answer rs.Primary.ID = Except.ok (some gw) ∧
            aws.StringValue gw.State ≠ "deleted"))) ∧
    (∀ seed2 tr2, (testAccCheckTransitGatewayDestroy env seed s tr).1 = none ↔
      (testAccCheckTransitGatewayDestroy env seed2 s tr2).1 = none) := by
  have hiff : ∀ sd t, ((testAccCheckTransitGatewayDestroy env sd s t).1 ≠ none ↔
      ∃ name rs, GoMap.get? s.Resources name = some rs ∧
        rs.Type_ = "aws_ec2_transit_gateway" ∧
        ((∃ err, answer rs.Primary.ID = Except.error err ∧
            ¬ ∃ m, err = GoError.aws "InvalidTransitGatewayID.NotFound" m) ∨
          (∃ gw, answer rs.Primary.ID = Except.ok (some gw) ∧
            aws.StringValue gw.State ≠ "deleted"))) := by
    intro sd t
    unfold testAccCheckTransitGatewayDestroy
    rw [testAccCheckTransitGatewayDestroy.loop_error_iff env answer hstable]
    constructor
    · rintro ⟨⟨name, rs⟩, hmem, h⟩
      have hmem2 := (GoMap.range_perm sd s.Resources).mem_iff.1 hmem
      exact ⟨name, rs, (GoMap.mem_entries_iff _ _ _).1 hmem2, h⟩
    · rintro ⟨name, rs, hget, h⟩
      have hmem := (GoMap.mem_entries_iff _ _ _).2 hget
      exact ⟨(name, rs), (GoMap.range_perm sd s.Resources).mem_iff.2 hmem, h⟩
  refine ⟨hiff seed tr, ?_⟩
  intro seed2 tr2
  have h1 := hiff seed tr
  have h2 := hiff seed2 tr2
  constructor
  · intro h
    by_contra hne
    exact (h1.2 (h2.1 hne)) h
  · intro h
    by_contra hne
    exact (h2.2 (h1.1 hne)) h

/-- The witness of C14: the state with the available transit gateway `tgw-a`,
for which the check returns an error. -/
theorem C14_transit_gateway_destroy_check_witness :
    (∀ tr id, Env.transitGatewayAvailable.DescribeTransitGateway tr id
      = Env.transitGatewayAvailable.answer id) ∧
    (testAccCheckTransitGatewayDestroy Env.transitGatewayAvailable 0
      terraform.State.oneTransitGateway []).1 ≠ none :=
  ⟨fun _ _ => rfl,
    (C14_transit_gateway_destroy_check Env.transitGatewayAvailable
      Env.transitGatewayAvailable.answer 0 terraform.State.oneTransitGateway []
      (fun _ _ => rfl)).1.2
      ⟨"aws_ec2_transit_gateway.test",
        { Type_ := "aws_ec2_transit_gateway", Primary := { ID := "tgw-a" } },
        by decide, rfl, Or.inr ⟨_, rfl, by decide⟩⟩⟩

/-- C15: `testAccCheckTransitGatewayExists(name, out)` returns nil exactly when
the state has a resource under the name, its primary id is not empty,
`tfec2.DescribeTransitGateway` returns a gateway without an error, and the state
of that gateway is "available". When it returns nil, `*out` is the described
gateway; when it returns an error, `*out` is what it was. -/
theorem C15_transit_gateway_exists_check (env : Env) (resourceName : String)
    (out : ec2.TransitGateway) (s : terraform.State) (tr : Trace) :
    ((testAccCheckTransitGatewayExists env resourceName out s tr).1 = none ↔
      ∃ rs gateway, GoMap.get? s.Resources resourceName = some rs ∧
        rs.Primary.ID ≠ "" ∧
        env.DescribeTransitGateway tr rs.Primary.ID = Except.ok (some gateway) ∧
        aws.StringValue gateway.State = "available") ∧
    ((testAccCheckTransitGatewayExists env resourceName out s tr).1 = none →
      ∃ rs, GoMap.get? s.Resources resourceName = some rs ∧
        env.DescribeTransitGateway tr rs.Primary.ID
          = Except.ok (some (testAccCheckTransitGatewayExists env resourceName out s tr).2.1)) ∧
    ((testAccCheckTransitGatewayExists env resourceName out s tr).1 ≠ none →
      (testAccCheckTransitGatewayExists env resourceName out s tr).2.1 = out) := by
  unfold testAccCheckTransitGatewayExists
  cases hget : GoMap.get? s.Resources resourceName with
  | none => simp
  | some rs =>
    by_cases hid : rs.Primary.ID = ""
    · simp [hid]
    · simp only [hid, if_false]
      cases hans : env.DescribeTransitGateway tr rs.Primary.ID with
      | error err => simp [hans]
      | ok found =>
        cases found with
        | none => simp [hans]
        | some gateway =>
          by_cases hstate : aws.StringValue gateway.State = "available"
          · simp [ec2.TransitGatewayStateAvailable, hstate, hid, hans]
          · simp [ec2.TransitGatewayStateAvailable, hstate, hans]

/-! ## Transit gateway sweeper: timeouts of the retry helper -/

/-- The loop over the gateways of a page handles them one after the other: a
gateway is reached with the history the gateways before it leave, when none of
them made the sweeper return. -/
theorem testSweepEc2TransitGateways.gateways_append (env : Env)
    (before after : List ec2.TransitGateway) (tr : Trace) :
    testSweepEc2TransitGateways.gateways env (before ++ after) tr
      = (if (testSweepEc2TransitGateways.gateways env before tr).1 = none then
          testSweepEc2TransitGateways.gateways env after
            (testSweepEc2TransitGateways.gateways env before tr).2
        else testSweepEc2TransitGateways.gateways env before tr) := by
  induction before generalizing tr with
  | nil => simp [testSweepEc2TransitGateways.gateways]
  | cons gw rest ih =>
    simp only [List.cons_append, testSweepEc2TransitGateways.gateways]
    split
    · exact ih tr
    · split
      · simp
      · split
        · simp
        · exact ih _

/-- The step of the loop over the gateways of a page for a gateway that is not
yet deleted, in terms of what the retry helper returns for it. -/
theorem testSweepEc2TransitGateways.gateways_cons_live (env : Env)
    (transitGateway : ec2.TransitGateway) (rest : List ec2.TransitGateway) (tr : Trace)
    (hlive : aws.StringValue transitGateway.State ≠ "deleted") :
    testSweepEc2TransitGateways.gateways env (transitGateway :: rest) tr
      = (match (if env.TimedOut (testSweepEc2TransitGateways.retried env transitGateway tr).1
              then (env.DeleteTransitGateway
                  (testSweepEc2TransitGateways.retried env transitGateway tr).2
                  (testSweepEc2TransitGateways.deleteInput transitGateway),
                (testSweepEc2TransitGateways.retried env transitGateway tr).2 ++
                  [ec2.Call.DeleteTransitGateway
                    (testSweepEc2TransitGateways.deleteInput transitGateway)])
              else testSweepEc2TransitGateways.retried env transitGateway tr) with
        | (some err, calls) =>
          (some (fmt.Errorf ["error deleting EC2 Transit Gateway (",
            aws.StringValue transitGateway.TransitGatewayId, "): ", err.Error]), calls)
        | (none, calls) =>
          match env.WaitForTransitGatewayDeletion calls
              (aws.StringValue transitGateway.TransitGatewayId) with
          | some err =>
            (some (fmt.Errorf ["error waiting for EC2 Transit Gateway (",
              aws.StringValue transitGateway.TransitGatewayId, ") deletion: ", err.Error]),
              calls ++ [ec2.Call.WaitForTransitGatewayDeletion
                (aws.StringValue transitGateway.TransitGatewayId)])
          | none =>
            testSweepEc2TransitGateways.gateways env rest
              (calls ++ [ec2.Call.WaitForTransitGatewayDeletion
                (aws.StringValue transitGateway.TransitGatewayId)])) := by
  have hlive2 : ¬ aws.StringValue transitGateway.State = ec2.TransitGatewayStateDeleted := hlive
  rw [testSweepEc2TransitGateways.gateways]
  simp only [hlive2, if_false]
  generalize hd : (if env.TimedOut (resource.Retry env (2 * time.Minute)
      (testSweepEc2TransitGateways.callback env
        { TransitGatewayId := aws.String (aws.StringValue transitGateway.TransitGatewayId) })
      tr).1 = true then
      (env.DeleteTransitGateway (resource.Retry env (2 * time.Minute)
          (testSweepEc2TransitGateways.callback env
            { TransitGatewayId := aws.String (aws.StringValue transitGateway.TransitGatewayId) })
          tr).2
          { TransitGatewayId := aws.String (aws.StringValue transitGateway.TransitGatewayId) },
        (resource.Retry env (2 * time.Minute)
          (testSweepEc2TransitGateways.callback env
            { TransitGatewayId := aws.String (aws.StringValue transitGateway.TransitGatewayId) })
          tr).2 ++
          [ec2.Call.DeleteTransitGateway
            { TransitGatewayId := aws.String (aws.StringValue transitGateway.TransitGatewayId) }])
      else resource.Retry env (2 * time.Minute)
        (testSweepEc2TransitGateways.callback env
          { TransitGatewayId := aws.String (aws.StringValue transitGateway.TransitGatewayId) })
        tr) = deleted
  have hd2 : (if env.TimedOut (testSweepEc2TransitGateways.retried env transitGateway tr).1
      then (env.DeleteTransitGateway
          (testSweepEc2TransitGateways.retried env transitGateway tr).2
          (testSweepEc2TransitGateways.deleteInput transitGateway),
        (testSweepEc2TransitGateways.retried env transitGateway tr).2 ++
          [ec2.Call.DeleteTransitGateway
            (testSweepEc2TransitGateways.deleteInput transitGateway)])
      else testSweepEc2TransitGateways.retried env transitGateway tr) = deleted := hd
  rw [hd2]
  obtain ⟨err, calls⟩ := deleted
  cases err <;> rfl

/-- The retry helper around the sweeper's function only adds calls to the
history. -/
theorem testSweepEc2TransitGateways.retry_loop_extends (env : Env)
    (input : ec2.DeleteTransitGatewayInput) (attempts : Nat) (tr : Trace) :
    ∃ later, (resource.Retry.loop env (testSweepEc2TransitGateways.callback env input)
      attempts tr).2 = tr ++ later := by
  induction attempts generalizing tr with
  | zero =>
    simp only [resource.Retry.loop, testSweepEc2TransitGateways.callback]
    split
    · rename_i h
      exact ⟨[ec2.Call.DeleteTransitGateway input], by rw [(Prod.mk.inj h).2]⟩
    · rename_i h
      split <;> exact ⟨[ec2.Call.DeleteTransitGateway input], by rw [(Prod.mk.inj h).2]⟩
  | succ n ih =>
    simp only [resource.Retry.loop, testSweepEc2TransitGateways.callback]
    split
    · rename_i h
      exact ⟨[ec2.Call.DeleteTransitGateway input], by rw [(Prod.mk.inj h).2]⟩
    · rename_i h
      split
      · obtain ⟨later, hlater⟩ := ih (tr ++ [ec2.Call.DeleteTransitGateway input])
        refine ⟨ec2.Call.DeleteTransitGateway input :: later, ?_⟩
        rw [← (Prod.mk.inj h).2, hlater]
        simp
      · exact ⟨[ec2.Call.DeleteTransitGateway input], by rw [(Prod.mk.inj h).2]⟩

/-- The loop over the gateways of a page only adds calls to the history. -/
theorem testSweepEc2TransitGateways.gateways_extends (env : Env)
    (gws : List ec2.TransitGateway) (tr : Trace) :
    ∃ later, (testSweepEc2TransitGateways.gateways env gws tr).2 = tr ++ later := by
  induction gws generalizing tr with
  | nil => exact ⟨[], by simp [testSweepEc2TransitGateways.gateways]⟩
  | cons gw rest ih =>
    by_cases hdel : aws.StringValue gw.State = "deleted"
    · rw [testSweepEc2TransitGateways.gateways]
      simp only [ec2.TransitGatewayStateDeleted, hdel, if_true]
      exact ih tr
    · rw [testSweepEc2TransitGateways.gateways_cons_live env gw rest tr hdel]
      obtain ⟨l1, hl1⟩ := testSweepEc2TransitGateways.retry_loop_extends env
        (testSweepEc2TransitGateways.deleteInput gw) (env.retryAttempts (2 * time.Minute) tr) tr
      have hl2 : (testSweepEc2TransitGateways.retried env gw tr).2 = tr ++ l1 := hl1
      have hdeleted : ∃ l, (if env.TimedOut (testSweepEc2TransitGateways.retried env gw tr).1
          then (env.DeleteTransitGateway (testSweepEc2TransitGateways.retried env gw tr).2
              (testSweepEc2TransitGateways.deleteInput gw),
            (testSweepEc2TransitGateways.retried env gw tr).2 ++
              [ec2.Call.DeleteTransitGateway (testSweepEc2TransitGateways.deleteInput gw)])
          else testSweepEc2TransitGateways.retried env gw tr).2 = tr ++ l := by
        split
        · exact ⟨l1 ++ [ec2.Call.DeleteTransitGateway
            (testSweepEc2TransitGateways.deleteInput gw)], by simp [hl2]⟩
        · exact ⟨l1, hl2⟩
      obtain ⟨l, hl⟩ := hdeleted
      generalize (if env.TimedOut (testSweepEc2TransitGateways.retried env gw tr).1
          then (env.DeleteTransitGateway (testSweepEc2TransitGateways.retried env gw tr).2
              (testSweepEc2TransitGateways.deleteInput gw),
            (testSweepEc2TransitGateways.retried env gw tr).2 ++
              [ec2.Call.DeleteTransitGateway (testSweepEc2TransitGateways.deleteInput gw)])
          else testSweepEc2TransitGateways.retried env gw tr) = deleted at hl ⊢
      obtain ⟨err, calls⟩ := deleted
      simp only at hl
      subst hl
      cases err with
      | some e => exact ⟨l, rfl⟩
      | none =>
        simp only []
        cases env.WaitForTransitGatewayDeletion (tr ++ l) (aws.StringValue gw.TransitGatewayId) with
        | some e => exact ⟨l ++ [ec2.Call.WaitForTransitGatewayDeletion
            (aws.StringValue gw.TransitGatewayId)], by simp⟩
        | none =>
          simp only []
          obtain ⟨l3, hl3⟩ := ih (tr ++ l ++ [ec2.Call.WaitForTransitGatewayDeletion
            (aws.StringValue gw.TransitGatewayId)])
          exact ⟨l ++ ec2.Call.WaitForTransitGatewayDeletion
            (aws.StringValue gw.TransitGatewayId) :: l3, by rw [hl3]; simp⟩

/-- C18: for a gateway the transit-gateway sweeper has to delete, after any
history. When the retry helper reports a timeout, one more
`DeleteTransitGateway` call is made; any error of it, whatever its code, makes
the sweeper return "error deleting EC2 Transit Gateway" with no further call,
and without an error the sweeper goes on to the wait. An error with code
`InvalidTransitGatewayID.NotFound` inside the retried function makes the helper
return nil. Any other error the helper returns is returned wrapped with the
gateway id, with no further call. An error in the loop over the gateways of a
page ends the loop over the pages, and the gateways before the one at hand
only pass on their history. -/
theorem C18_retry_timeout_fallback (env : Env) (transitGateway : ec2.TransitGateway)
    (rest : List ec2.TransitGateway) (tr : Trace)
    (hlive : aws.StringValue transitGateway.State ≠ "deleted") :
    (env.TimedOut (testSweepEc2TransitGateways.retried env transitGateway tr).1 = true →
      (∀ err, env.DeleteTransitGateway (testSweepEc2TransitGateways.retried env transitGateway tr).2
            (testSweepEc2TransitGateways.deleteInput transitGateway) = some err →
          testSweepEc2TransitGateways.gateways env (transitGateway :: rest) tr
            = (some (fmt.Errorf ["error deleting EC2 Transit Gateway (",
                aws.StringValue transitGateway.TransitGatewayId, "): ", err.Error]),
              (testSweepEc2TransitGateways.retried env transitGateway tr).2 ++
                [ec2.Call.DeleteTransitGateway
                  (testSweepEc2TransitGateways.deleteInput transitGateway)])) ∧
      (env.DeleteTransitGateway (testSweepEc2TransitGateways.retried env transitGateway tr).2
            (testSweepEc2TransitGateways.deleteInput transitGateway) = none →
          ∃ later, (testSweepEc2TransitGateways.gateways env (transitGateway :: rest) tr).2
            = (testSweepEc2TransitGateways.retried env transitGateway tr).2 ++
                [ec2.Call.DeleteTransitGateway
                    (testSweepEc2TransitGateways.deleteInput transitGateway),
                  ec2.Call.WaitForTransitGatewayDeletion
                    (aws.StringValue transitGateway.TransitGatewayId)] ++ later)) ∧
    (∀ m, env.DeleteTransitGateway tr (testSweepEc2TransitGateways.deleteInput transitGateway)
        = some (GoError.aws "InvalidTransitGatewayID.NotFound" m) →
      testSweepEc2TransitGateways.retried env transitGateway tr
        = (none, tr ++ [ec2.Call.DeleteTransitGateway
            (testSweepEc2TransitGateways.deleteInput transitGateway)])) ∧
    (env.TimedOut (testSweepEc2TransitGateways.retried env transitGateway tr).1 = false →
      ∀ err, (testSweepEc2TransitGateways.retried env transitGateway tr).1 = some err →
        testSweepEc2TransitGateways.gateways env (transitGateway :: rest) tr
          = (some (fmt.Errorf ["error deleting EC2 Transit Gateway (",
              aws.StringValue transitGateway.TransitGatewayId, "): ", err.Error]),
            (testSweepEc2TransitGateways.retried env transitGateway tr).2)) ∧
    (∀ fuel input history output err calls,
      env.SkipSweepError none = false →
      env.DescribeTransitGateways history input = Except.ok output →
      testSweepEc2TransitGateways.gateways env output.TransitGateways
          (history ++ [ec2.Call.DescribeTransitGateways input]) = (some err, calls) →
      testSweepEc2TransitGateways.pages env (fuel + 1) input history = some (some err, calls)) ∧
    (∀ before history,
      (testSweepEc2TransitGateways.gateways env before history).1 = none →
      testSweepEc2TransitGateways.gateways env (before ++ transitGateway :: rest) history
        = testSweepEc2TransitGateways.gateways env (transitGateway :: rest)
            (testSweepEc2TransitGateways.gateways env before history).2) := by
  refine ⟨?_, ?_, ?_, ?_, ?_⟩
  · intro htimed
    constructor
    · intro err herr
      rw [testSweepEc2TransitGateways.gateways_cons_live env transitGateway rest tr hlive]
      simp only [htimed, if_true, herr]
    · intro hok
      rw [testSweepEc2TransitGateways.gateways_cons_live env transitGateway rest tr hlive]
      simp only [htimed, if_true, hok]
      cases env.WaitForTransitGatewayDeletion
          ((testSweepEc2TransitGateways.retried env transitGateway tr).2 ++
            [ec2.Call.DeleteTransitGateway
              (testSweepEc2TransitGateways.deleteInput transitGateway)])
          (aws.StringValue transitGateway.TransitGatewayId) with
      | some err => exact ⟨[], by simp⟩
      | none =>
        simp only []
        obtain ⟨later, hlater⟩ := testSweepEc2TransitGateways.gateways_extends env rest
          ((testSweepEc2TransitGateways.retried env transitGateway tr).2 ++
            [ec2.Call.DeleteTransitGateway
              (testSweepEc2TransitGateways.deleteInput transitGateway)] ++
            [ec2.Call.WaitForTransitGatewayDeletion
              (aws.StringValue transitGateway.TransitGatewayId)])
        exact ⟨later, by rw [hlater]; simp⟩
  · intro m hm
    unfold testSweepEc2TransitGateways.retried resource.Retry
    cases env.retryAttempts (2 * time.Minute) tr <;>
      simp [resource.Retry.loop, testSweepEc2TransitGateways.callback, hm,
        testSweepEc2TransitGateways.classify, tfawserr.ErrMessageContains_aws,
        strings.Contains_empty]
  · intro htimed err herr
    rw [testSweepEc2TransitGateways.gateways_cons_live env transitGateway rest tr hlive]
    have hpair : testSweepEc2TransitGateways.retried env transitGateway tr
        = (some err, (testSweepEc2TransitGateways.retried env transitGateway tr).2) := by
      rw [← herr]
    simp only [htimed, Bool.false_eq_true, if_false]
    rw [hpair]
  · intro fuel input history output err calls hskip hdesc hloop
    rw [testSweepEc2TransitGateways.pages]
    simp only [hdesc, errOf, hskip, hloop]
    simp
  · intro before history hbefore
    rw [testSweepEc2TransitGateways.gateways_append, if_pos hbefore]

/-- The witness of C18: the retry helper times out on `tgw-a`, the one further
call finds the gateway gone, and the sweeper returns that error; `tgw-c` is not
reached. -/
theorem C18_retry_timeout_fallback_witness :
    aws.StringValue (some "available") ≠ "deleted" ∧
    testSweepEc2TransitGateways.gateways Env.retryTimesOut
        ({ State := some "available", TransitGatewayId := some "tgw-a" } ::
          [{ State := some "pending", TransitGatewayId := some "tgw-c" }]) []
      = (some (GoError.other
          "error deleting EC2 Transit Gateway (tgw-a): InvalidTransitGatewayID.NotFound: gone"),
        [ec2.Call.DeleteTransitGateway { TransitGatewayId := some "tgw-a" },
         ec2.Call.DeleteTransitGateway { TransitGatewayId := some "tgw-a" }]) :=
  ⟨by decide,
    (((C18_retry_timeout_fallback Env.retryTimesOut
        { State := some "available", TransitGatewayId := some "tgw-a" }
        [{ State := some "pending", TransitGatewayId := some "tgw-c" }] []
        (by decide)).1 (by decide)).1
      (GoError.aws "InvalidTransitGatewayID.NotFound" "gone") (by decide)).trans (by decide)⟩

/-! ## Internet gateway sweeper: a gateway attached to the default VPC -/

/-- C17: the internet-gateway sweeper detaches the attachments listed before the
one to the default VPC. For the gateway `igw-d`, attached to `vpc-1` and then
to the default VPC `vpc-0`, it issues no `DeleteInternetGateway` call, but it
does issue `DetachInternetGateway` for `igw-d` and `vpc-1`, and waits for that
detachment. -/
theorem C17_default_vpc_gateway_is_detached :
    testSweepInternetGateways Env.defaultVpcSecond "us-west-2"
      = (none,
        [ec2.Call.DescribeInternetGateways {},
         ec2.Call.DescribeVpcs
           { Filters := some [{ Name := some "isDefault", Values := [some "true"] }] },
         ec2.Call.DetachInternetGateway
           { InternetGatewayId := some "igw-d", VpcId := some "vpc-1" },
         ec2.Call.WaitForState
           { Pending := ["detaching"], Target := ["detached"],
             Refresh := { gatewayID := "igw-d", vpcID := "vpc-1" },
             Timeout := 600000000000, Delay := 10000000000 }]) ∧
    deleteInternetGatewayInputs (testSweepInternetGateways Env.defaultVpcSecond "us-west-2").2
      = [] ∧
    ec2.Call.DetachInternetGateway { InternetGatewayId := some "igw-d", VpcId := some "vpc-1" }
      ∈ (testSweepInternetGateways Env.defaultVpcSecond "us-west-2").2 := by
  decide

/-! ## Internet gateway sweeper: the order of the calls, lemmas -/

theorem detachesWaited_append (a b : Trace) (ha : detachesWaited a) (hb : detachesWaited b) :
    detachesWaited (a ++ b) := by
  intro i input h
  by_cases hi : i < a.length
  · rw [List.getElem?_append_left hi] at h
    have hnext := ha i input h
    have hlt : i + 1 < a.length := by
      obtain ⟨hlt, _⟩ := List.getElem?_eq_some_iff.1 hnext
      exact hlt
    rw [List.getElem?_append_left hlt]
    exact hnext
  · have hle : a.length ≤ i := Nat.le_of_not_lt hi
    rw [List.getElem?_append_right hle] at h
    have hnext := hb (i - a.length) input h
    rw [List.getElem?_append_right (by omega)]
    have hidx : i + 1 - a.length = i - a.length + 1 := by omega
    rw [hidx]
    exact hnext

theorem detachesWaited_of_none (tr : Trace)
    (h : ∀ call ∈ tr, ∀ input, call ≠ ec2.Call.DetachInternetGateway input) :
    detachesWaited tr := by
  intro i input hget
  obtain ⟨hlt, heq⟩ := List.getElem?_eq_some_iff.1 hget
  exact absurd heq (h _ (List.getElem_mem hlt) input)

theorem detachesWaited_pair (input : ec2.DetachInternetGatewayInput) :
    detachesWaited [ec2.Call.DetachInternetGateway input,
      ec2.Call.WaitForState (waitForDetached input)] := by
  intro i input2 h
  match i, h with
  | 0, h =>
    simp only [List.getElem?_cons_zero, Option.some.injEq, ec2.Call.DetachInternetGateway.injEq] at h
    subst h
    rfl
  | 1, h => simp at h
  | n + 2, h => simp at h

theorem allSucceeded_nil (env : Env) : allSucceeded env [] := by
  intro i call h
  simp at h

theorem allSucceeded_snoc (env : Env) (tr : Trace) (call : ec2.Call)
    (htr : allSucceeded env tr) (hcall : env.errorOf tr call = none) :
    allSucceeded env (tr ++ [call]) := by
  intro i c h
  by_cases hi : i < tr.length
  · rw [List.getElem?_append_left hi] at h
    rw [List.take_append_of_le_length (Nat.le_of_lt hi)]
    exact htr i c h
  · have hle : tr.length ≤ i := Nat.le_of_not_lt hi
    obtain ⟨hlt, _⟩ := List.getElem?_eq_some_iff.1 h
    have hieq : i = tr.length := by
      simp only [List.length_append, List.length_singleton] at hlt
      omega
    subst hieq
    rw [List.getElem?_concat_length] at h
    rw [List.take_left]
    rw [← Option.some.inj h]
    exact hcall

theorem deletesPrepared_append (gws : List ec2.InternetGateway) (tr ext : Trace)
    (htr : deletesPrepared gws tr)
    (hext : ∀ call ∈ ext, isDeleteInternetGateway call = false) :
    deletesPrepared gws (tr ++ ext) := by
  intro i input h
  by_cases hi : i < tr.length
  · rw [List.getElem?_append_left hi] at h
    rw [List.take_append_of_le_length (Nat.le_of_lt hi)]
    exact htr i input h
  · have hle : tr.length ≤ i := Nat.le_of_not_lt hi
    rw [List.getElem?_append_right hle] at h
    obtain ⟨hlt, heq⟩ := List.getElem?_eq_some_iff.1 h
    have hno := hext _ (List.getElem_mem hlt)
    rw [heq] at hno
    simp [isDeleteInternetGateway] at hno

theorem deletesPrepared_snoc (gws : List ec2.InternetGateway) (tr : Trace)
    (gw : ec2.InternetGateway) (htr : deletesPrepared gws tr) (hgw : gw ∈ gws)
    (hdetached : detachments gw <:+ tr) :
    deletesPrepared gws
      (tr ++ [ec2.Call.DeleteInternetGateway { InternetGatewayId := gw.InternetGatewayId }]) := by
  intro i input h
  by_cases hi : i < tr.length
  · rw [List.getElem?_append_left hi] at h
    rw [List.take_append_of_le_length (Nat.le_of_lt hi)]
    exact htr i input h
  · have hle : tr.length ≤ i := Nat.le_of_not_lt hi
    obtain ⟨hlt, _⟩ := List.getElem?_eq_some_iff.1 h
    have hieq : i = tr.length := by
      simp only [List.length_append, List.length_singleton] at hlt
      omega
    subst hieq
    rw [List.getElem?_concat_length] at h
    rw [List.take_left]
    have hinput : input = { InternetGatewayId := gw.InternetGatewayId } := by
      have h2 := Option.some.inj h
      exact (ec2.Call.DeleteInternetGateway.inj h2).symm
    exact ⟨gw, hgw, hinput, hdetached⟩

theorem endedByFailure_of_earlier_start (env : Env) (start later tr : Trace)
    (hpre : start <+: later) (h : endedByFailure env later tr) : endedByFailure env start tr := by
  obtain ⟨succeeded, call, htr, hlater, hall, hfail⟩ := h
  exact ⟨succeeded, call, htr, hpre.trans hlater, hall, hfail⟩

/-- One step of the loop over the attachments of a gateway. -/
theorem testSweepInternetGateways.attachments_cons (env : Env)
    (internetGateway : ec2.InternetGateway) (defaultVPCID : String)
    (attachment : ec2.InternetGatewayAttachment) (rest : List ec2.InternetGatewayAttachment)
    (tr : Trace) :
    testSweepInternetGateways.attachments env internetGateway defaultVPCID
        (attachment :: rest) tr
      = (if aws.StringValue attachment.VpcId = defaultVPCID then
          (testSweepInternetGateways.AttachmentsEnd.isDefaultVPCInternetGateway, tr)
        else
          match env.DetachInternetGateway tr
              (testSweepInternetGateways.detachInput internetGateway attachment) with
          | some err =>
            (testSweepInternetGateways.AttachmentsEnd.returned
              (fmt.Errorf ["error detaching Internet Gateway (",
                aws.StringValue internetGateway.InternetGatewayId, ") from VPC (",
                aws.StringValue attachment.VpcId, "): ", err.Error]),
              tr ++ [ec2.Call.DetachInternetGateway
                (testSweepInternetGateways.detachInput internetGateway attachment)])
          | none =>
            match env.WaitForState
                (tr ++ [ec2.Call.DetachInternetGateway
                  (testSweepInternetGateways.detachInput internetGateway attachment)])
                (waitForDetached
                  (testSweepInternetGateways.detachInput internetGateway attachment)) with
            | some err =>
              (testSweepInternetGateways.AttachmentsEnd.returned
                (fmt.Errorf ["error waiting for VPN Gateway (",
                  aws.StringValue internetGateway.InternetGatewayId, ") to detach from VPC (",
                  aws.StringValue attachment.VpcId, "): ", err.Error]),
                tr ++ [ec2.Call.DetachInternetGateway
                    (testSweepInternetGateways.detachInput internetGateway attachment)] ++
                  [ec2.Call.WaitForState (waitForDetached
                    (testSweepInternetGateways.detachInput internetGateway attachment))])
            | none =>
              testSweepInternetGateways.attachments env internetGateway defaultVPCID rest
                (tr ++ [ec2.Call.DetachInternetGateway
                    (testSweepInternetGateways.detachInput internetGateway attachment)] ++
                  [ec2.Call.WaitForState (waitForDetached
                    (testSweepInternetGateways.detachInput internetGateway attachment))])) := by
  rw [testSweepInternetGateways.attachments]
  rfl

theorem detachmentsOf_cons (internetGateway : ec2.InternetGateway)
    (attachment : ec2.InternetGatewayAttachment) (rest : List ec2.InternetGatewayAttachment) :
    detachmentsOf internetGateway.InternetGatewayId (attachment :: rest)
      = [ec2.Call.DetachInternetGateway
            (testSweepInternetGateways.detachInput internetGateway attachment),
          ec2.Call.WaitForState (waitForDetached
            (testSweepInternetGateways.detachInput internetGateway attachment))] ++
        detachmentsOf internetGateway.InternetGatewayId rest := by
  simp [detachmentsOf, testSweepInternetGateways.detachInput]

/-- The loop over the attachments of a gateway, started after a history in
which every call succeeded and every detach was waited for. -/
theorem testSweepInternetGateways.attachments_spec (env : Env)
    (internetGateway : ec2.InternetGateway) (defaultVPCID : String)
    (atts : List ec2.InternetGatewayAttachment) (tr : Trace)
    (hwaited : detachesWaited tr) (hall : allSucceeded env tr) :
    ∃ ext,
      (testSweepInternetGateways.attachments env internetGateway defaultVPCID atts tr).2
        = tr ++ ext ∧
      (∀ call ∈ ext, isDeleteInternetGateway call = false) ∧
      testSweepInternetGateways.attachmentsPost env internetGateway atts tr ext
        (testSweepInternetGateways.attachments env internetGateway defaultVPCID atts tr).1 := by
  induction atts generalizing tr with
  | nil =>
    refine ⟨[], by simp [testSweepInternetGateways.attachments], by simp, ?_⟩
    simp only [testSweepInternetGateways.attachments,
      testSweepInternetGateways.attachmentsPost, List.append_nil]
    exact ⟨rfl, hwaited, hall⟩
  | cons attachment rest ih =>
    have hcons := detachmentsOf_cons internetGateway attachment rest
    rw [testSweepInternetGateways.attachments_cons]
    generalize testSweepInternetGateways.detachInput internetGateway attachment = input
      at hcons ⊢
    by_cases hdefault : aws.StringValue attachment.VpcId = defaultVPCID
    · simp only [hdefault, if_true]
      refine ⟨[], by simp, by simp, ?_⟩
      simp only [testSweepInternetGateways.attachmentsPost, List.append_nil]
      exact ⟨hwaited, hall⟩
    · simp only [hdefault, if_false]
      cases hdet : env.DetachInternetGateway tr input with
      | some err =>
        refine ⟨[ec2.Call.DetachInternetGateway input], rfl,
          by simp [isDeleteInternetGateway], ?_⟩
        refine ⟨⟨tr, _, rfl, List.prefix_refl _, hall, ?_⟩, Or.inr ⟨tr, _, rfl, hwaited, ?_⟩⟩
        · simp [Env.errorOf, hdet]
        · simp [hdet]
      | none =>
        have hall1 : allSucceeded env (tr ++ [ec2.Call.DetachInternetGateway input]) :=
          allSucceeded_snoc env tr _ hall (by simp [Env.errorOf, hdet])
        have hwaited2 : detachesWaited (tr ++ [ec2.Call.DetachInternetGateway input] ++
            [ec2.Call.WaitForState (waitForDetached input)]) := by
          rw [List.append_assoc]
          exact detachesWaited_append _ _ hwaited (detachesWaited_pair _)
        cases hwait : env.WaitForState (tr ++ [ec2.Call.DetachInternetGateway input])
            (waitForDetached input) with
        | some err =>
          refine ⟨[ec2.Call.DetachInternetGateway input,
            ec2.Call.WaitForState (waitForDetached input)], by simp,
            by simp [isDeleteInternetGateway], ?_⟩
          refine ⟨⟨tr ++ [ec2.Call.DetachInternetGateway input],
            ec2.Call.WaitForState (waitForDetached input), by simp,
            List.prefix_append _ _, hall1, ?_⟩, Or.inl ?_⟩
          · simp [Env.errorOf, hwait]
          · have h2 : tr ++ [ec2.Call.DetachInternetGateway input,
                ec2.Call.WaitForState (waitForDetached input)]
                = tr ++ [ec2.Call.DetachInternetGateway input] ++
                  [ec2.Call.WaitForState (waitForDetached input)] := by simp
            rw [h2]
            exact hwaited2
        | none =>
          have hall2 := allSucceeded_snoc env _ (ec2.Call.WaitForState (waitForDetached input))
            hall1 (by simp [Env.errorOf, hwait])
          obtain ⟨ext, hext, hnodel, hpost⟩ := ih _ hwaited2 hall2
          have hassoc : tr ++ ([ec2.Call.DetachInternetGateway input,
              ec2.Call.WaitForState (waitForDetached input)] ++ ext)
              = (tr ++ [ec2.Call.DetachInternetGateway input] ++
                [ec2.Call.WaitForState (waitForDetached input)]) ++ ext := by simp
          refine ⟨[ec2.Call.DetachInternetGateway input,
            ec2.Call.WaitForState (waitForDetached input)] ++ ext, ?_, ?_, ?_⟩
          · simp only []
            rw [hext, hassoc]
          · intro call hcall
            rcases List.mem_append.1 hcall with h | h
            · simp only [List.mem_cons, List.mem_singleton, List.not_mem_nil, or_false] at h
              rcases h with h | h <;> rw [h] <;> rfl
            · exact hnodel call h
          · simp only []
            generalize testSweepInternetGateways.attachments env internetGateway defaultVPCID
              rest _ = res at hpost ⊢
            obtain ⟨ending, tr2⟩ := res
            cases ending with
            | completed =>
              simp only [testSweepInternetGateways.attachmentsPost] at hpost ⊢
              rw [hassoc]
              exact ⟨by rw [hcons, hpost.1], hpost.2.1, hpost.2.2⟩
            | isDefaultVPCInternetGateway =>
              simp only [testSweepInternetGateways.attachmentsPost] at hpost ⊢
              rw [hassoc]
              exact hpost
            | returned err =>
              simp only [testSweepInternetGateways.attachmentsPost] at hpost ⊢
              rw [hassoc]
              refine ⟨endedByFailure_of_earlier_start env tr _ _ ?_ hpost.1, hpost.2⟩
              rw [List.append_assoc]
              exact List.prefix_append _ _

theorem detachesWaited_snoc_delete (tr : Trace) (input : ec2.DeleteInternetGatewayInput)
    (htr : detachesWaited tr) :
    detachesWaited (tr ++ [ec2.Call.DeleteInternetGateway input]) := by
  apply detachesWaited_append _ _ htr
  apply detachesWaited_of_none
  intro call hcall input2
  rw [List.mem_singleton.1 hcall]
  simp

/-- The loop over the gateways, started after a history in which every call
succeeded, every detach was waited for and every delete was prepared. -/
theorem testSweepInternetGateways.gateways_spec (env : Env) (defaultVPCID : String)
    (gws : List ec2.InternetGateway) (l : List ec2.InternetGateway) (tr : Trace)
    (hl : ∀ gw ∈ l, gw ∈ gws) (hwaited : detachesWaited tr) (hall : allSucceeded env tr)
    (hprep : deletesPrepared gws tr) :
    (∃ ext, (testSweepInternetGateways.gateways env defaultVPCID l tr).2 = tr ++ ext) ∧
    deletesPrepared gws (testSweepInternetGateways.gateways env defaultVPCID l tr).2 ∧
    detachesWaitedOrFailed env (testSweepInternetGateways.gateways env defaultVPCID l tr).2 ∧
    ((testSweepInternetGateways.gateways env defaultVPCID l tr).1 = none →
      allSucceeded env (testSweepInternetGateways.gateways env defaultVPCID l tr).2) ∧
    ((testSweepInternetGateways.gateways env defaultVPCID l tr).1 ≠ none →
      endedByFailure env tr (testSweepInternetGateways.gateways env defaultVPCID l tr).2) := by
  induction l generalizing tr with
  | nil =>
    simp only [testSweepInternetGateways.gateways]
    exact ⟨⟨[], by simp⟩, hprep, Or.inl hwaited, fun _ => hall, fun h => absurd rfl h⟩
  | cons gw rest ih =>
    have hrest : ∀ g ∈ rest, g ∈ gws := fun g hg => hl g (List.mem_cons_of_mem _ hg)
    have hgw : gw ∈ gws := hl gw (List.mem_cons_self _ _)
    obtain ⟨ext, hext, hnodel, hpost⟩ := testSweepInternetGateways.attachments_spec env gw
      defaultVPCID gw.Attachments tr hwaited hall
    rw [testSweepInternetGateways.gateways]
    generalize testSweepInternetGateways.attachments env gw defaultVPCID gw.Attachments tr
      = res at hext hpost ⊢
    obtain ⟨ending, tr1⟩ := res
    simp only at hext hpost
    subst hext
    have hprep1 : deletesPrepared gws (tr ++ ext) := deletesPrepared_append gws tr ext hprep hnodel
    cases ending with
    | returned err =>
      simp only [testSweepInternetGateways.attachmentsPost] at hpost
      simp only []
      exact ⟨⟨ext, rfl⟩, hprep1, hpost.2, fun h => by simp at h, fun _ => hpost.1⟩
    | isDefaultVPCInternetGateway =>
      simp only [testSweepInternetGateways.attachmentsPost] at hpost
      simp only []
      obtain ⟨⟨ext2, hext2⟩, h2, h3, h4, h5⟩ := ih (tr ++ ext) hrest hpost.1 hpost.2 hprep1
      refine ⟨⟨ext ++ ext2, by rw [hext2, List.append_assoc]⟩, h2, h3, h4, ?_⟩
      intro hne
      exact endedByFailure_of_earlier_start env tr _ _ (List.prefix_append _ _) (h5 hne)
    | completed =>
      simp only [testSweepInternetGateways.attachmentsPost] at hpost
      obtain ⟨hshape, hwaited1, hall1⟩ := hpost
      have hsuffix : detachments gw <:+ tr ++ ext := by
        rw [hshape]
        exact List.suffix_append _ _
      have hprep2 := deletesPrepared_snoc gws (tr ++ ext) gw hprep1 hgw hsuffix
      have hwaited2 := detachesWaited_snoc_delete (tr ++ ext)
        { InternetGatewayId := gw.InternetGatewayId } hwaited1
      simp only []
      cases hdel : env.DeleteInternetGateway (tr ++ ext)
          { InternetGatewayId := gw.InternetGatewayId } with
      | some err =>
        simp only []
        refine ⟨⟨ext ++ [ec2.Call.DeleteInternetGateway
          { InternetGatewayId := gw.InternetGatewayId }], by rw [List.append_assoc]⟩,
          hprep2, Or.inl hwaited2, fun h => by simp at h, fun _ => ?_⟩
        exact ⟨tr ++ ext, _, rfl, List.prefix_append _ _, hall1, by simp [Env.errorOf, hdel]⟩
      | none =>
        simp only []
        have hall2 := allSucceeded_snoc env (tr ++ ext)
          (ec2.Call.DeleteInternetGateway { InternetGatewayId := gw.InternetGatewayId }) hall1
          (by simp [Env.errorOf, hdel])
        obtain ⟨⟨ext2, hext2⟩, h2, h3, h4, h5⟩ := ih _ hrest hwaited2 hall2 hprep2
        refine ⟨⟨ext ++ ec2.Call.DeleteInternetGateway
          { InternetGatewayId := gw.InternetGatewayId } :: ext2, by rw [hext2]; simp⟩,
          h2, h3, h4, ?_⟩
        intro hne
        refine endedByFailure_of_earlier_start env tr _ _ ?_ (h5 hne)
        rw [List.append_assoc]
        exact List.prefix_append _ _

theorem deletesPrepared_nil (gws : List ec2.InternetGateway) : deletesPrepared gws [] := by
  intro i input h
  simp at h

/-- What the trace and the result of a run of the internet-gateway sweeper
satisfy, whatever the environment. -/
theorem testSweepInternetGateways.run_spec (env : Env) (region : String) :
    detachesWaitedOrFailed env (testSweepInternetGateways env region).2 ∧
    (∀ i input, (testSweepInternetGateways env region).2[i]?
        = some (ec2.Call.DeleteInternetGateway input) →
      ∃ resp gw, env.DescribeInternetGateways [] {} = Except.ok resp ∧
        gw ∈ resp.InternetGateways ∧
        input = { InternetGatewayId := gw.InternetGatewayId } ∧
        detachments gw <:+ (testSweepInternetGateways env region).2.take i) ∧
    (allSucceeded env (testSweepInternetGateways env region).2 ∨
      ((testSweepInternetGateways env region).1 ≠ none ∧
        endedByFailure env [ec2.Call.DescribeInternetGateways {}]
          (testSweepInternetGateways env region).2) ∨
      ((testSweepInternetGateways env region).2 = [ec2.Call.DescribeInternetGateways {}] ∧
        env.errorOf [] (ec2.Call.DescribeInternetGateways {}) ≠ none ∧
        ((testSweepInternetGateways env region).1 = none ↔
          env.SkipSweepError (errOf (env.DescribeInternetGateways [] {})) = true))) ∧
    ((testSweepInternetGateways env region).2 = [] ∨
      ∃ later, (testSweepInternetGateways env region).2
        = ec2.Call.DescribeInternetGateways {} :: later) := by
  have hone : detachesWaited [ec2.Call.DescribeInternetGateways {}] :=
    detachesWaited_of_none _ (by simp)
  have hnodel1 : ∀ (i : Nat) input, ([ec2.Call.DescribeInternetGateways {}] : Trace)[i]?
      = some (ec2.Call.DeleteInternetGateway input) → False := by
    intro i input h
    match i, h with
    | 0, h => simp at h
    | n + 1, h => simp at h
  unfold testSweepInternetGateways
  cases hclient : env.SharedRegionalSweeperClient region with
  | some err =>
    simp only []
    exact ⟨Or.inl (detachesWaited_of_none _ (by simp)), by intro i input h; simp at h,
      Or.inl (allSucceeded_nil env), Or.inl trivial⟩
  | none =>
    simp only []
    cases hdesc : env.DescribeInternetGateways [] {} with
    | error err =>
      simp only []
      refine ⟨?_, ?_, Or.inr (Or.inr ?_), Or.inr ⟨[], ?_⟩⟩
      · split <;> exact Or.inl hone
      · split <;> exact fun i input h => (hnodel1 i input h).elim
      · split
        · rename_i hskip
          exact ⟨rfl, by simp [Env.errorOf, hdesc, errOf], by simp [errOf, hskip]⟩
        · rename_i hskip
          exact ⟨rfl, by simp [Env.errorOf, hdesc, errOf], by simp [errOf, hskip]⟩
      · split <;> rfl
    | ok resp =>
      simp only []
      have hall1 : allSucceeded env [ec2.Call.DescribeInternetGateways {}] :=
        allSucceeded_snoc env [] _ (allSucceeded_nil env) (by simp [Env.errorOf, hdesc, errOf])
      by_cases hempty : resp.InternetGateways.length = 0
      · simp only [hempty, if_true]
        exact ⟨Or.inl hone, fun i input h => (hnodel1 i input h).elim, Or.inl hall1,
          Or.inr ⟨[], rfl⟩⟩
      · simp only [hempty, if_false]
        generalize hin : (ec2.DescribeVpcsInput.mk
          (some [ec2.Filter.mk (aws.String "isDefault") (aws.StringSlice ["true"])])) = vpcsInput
        have htwo : detachesWaited ([ec2.Call.DescribeInternetGateways {}] ++
            [ec2.Call.DescribeVpcs vpcsInput]) :=
          detachesWaited_of_none _ (by simp)
        have hnodel2 : ∀ call ∈ ([ec2.Call.DescribeInternetGateways {}] ++
            [ec2.Call.DescribeVpcs vpcsInput] : Trace), isDeleteInternetGateway call = false := by
          intro call hcall
          simp only [List.mem_append, List.mem_singleton] at hcall
          rcases hcall with h | h <;> rw [h] <;> rfl
        have hprep2 : deletesPrepared resp.InternetGateways
            ([ec2.Call.DescribeInternetGateways {}] ++ [ec2.Call.DescribeVpcs vpcsInput]) := by
          have h := deletesPrepared_append resp.InternetGateways [] _
            (deletesPrepared_nil _) hnodel2
          simpa using h
        cases hvpcs : env.DescribeVpcs [ec2.Call.DescribeInternetGateways {}] vpcsInput with
        | error err =>
          simp only []
          refine ⟨Or.inl htwo, ?_, Or.inr (Or.inl ⟨by simp, ?_⟩), Or.inr ⟨_, rfl⟩⟩
          · intro i input h
            obtain ⟨gw, hgw, _⟩ := deletesPrepared_append [] [] _ (deletesPrepared_nil _)
              hnodel2 i input (by simpa using h)
            simp at hgw
          · exact ⟨[ec2.Call.DescribeInternetGateways {}], ec2.Call.DescribeVpcs vpcsInput,
              rfl, List.prefix_refl _, hall1, by simp [Env.errorOf, hvpcs, errOf]⟩
        | ok describeVpcsOutput =>
          simp only []
          have hall2 := allSucceeded_snoc env [ec2.Call.DescribeInternetGateways {}]
            (ec2.Call.DescribeVpcs vpcsInput) hall1 (by simp [Env.errorOf, hvpcs, errOf])
          obtain ⟨⟨ext, hext⟩, h2, h3, h4, h5⟩ := testSweepInternetGateways.gateways_spec env
            (testSweepInternetGateways.defaultVPCID describeVpcsOutput)
            resp.InternetGateways resp.InternetGateways
            ([ec2.Call.DescribeInternetGateways {}] ++ [ec2.Call.DescribeVpcs vpcsInput])
            (fun _ h => h) htwo hall2 hprep2
          refine ⟨h3, ?_, ?_, Or.inr ⟨ec2.Call.DescribeVpcs vpcsInput :: ext, by rw [hext]; rfl⟩⟩
          · intro i input h
            obtain ⟨gw, hgw, hinput, hsuffix⟩ := h2 i input h
            exact ⟨resp, gw, rfl, hgw, hinput, hsuffix⟩
          · by_cases hres : (testSweepInternetGateways.gateways env
                (testSweepInternetGateways.defaultVPCID describeVpcsOutput)
                resp.InternetGateways
                ([ec2.Call.DescribeInternetGateways {}] ++
                  [ec2.Call.DescribeVpcs vpcsInput])).1 = none
            · exact Or.inl (h4 hres)
            · exact Or.inr (Or.inl ⟨hres, endedByFailure_of_earlier_start env _ _ _
                (List.prefix_append _ _) (h5 hres)⟩)

/-! ## Internet gateway sweeper: the order of the calls -/

/-- C16: in every run of the internet-gateway sweeper, (1) each
`DetachInternetGateway` is directly followed by the wait for the detached state
of that attachment, with a timeout of ten minutes and a delay of ten seconds,
unless it is the last call and failed; (2) each `DeleteInternetGateway` is for
a listed gateway and comes directly after the detach and wait of every one of
its attachments; (3) a call that fails is the last call of the run, and the run
then returns an error, except that it returns nil when the failing call is the
first one, `DescribeInternetGateways`, and `acctest.SkipSweepError` accepts its
error. -/
theorem C16_sweeper_call_order (env : Env) (region : String) :
    (∀ i input, (testSweepInternetGateways env region).2[i]?
        = some (ec2.Call.DetachInternetGateway input) →
      (testSweepInternetGateways env region).2[i + 1]?
          = some (ec2.Call.WaitForState
              { Pending := ["detaching"], Target := ["detached"],
                Refresh := { gatewayID := aws.StringValue input.InternetGatewayId,
                             vpcID := aws.StringValue input.VpcId },
                Timeout := 10 * time.Minute, Delay := 10 * time.Second }) ∨
        (i + 1 = (testSweepInternetGateways env region).2.length ∧
          env.DetachInternetGateway ((testSweepInternetGateways env region).2.take i) input
            ≠ none)) ∧
    (∀ i input, (testSweepInternetGateways env region).2[i]?
        = some (ec2.Call.DeleteInternetGateway input) →
      ∃ resp gw, env.DescribeInternetGateways [] {} = Except.ok resp ∧
        gw ∈ resp.InternetGateways ∧
        input = { InternetGatewayId := gw.InternetGatewayId } ∧
        detachments gw <:+ (testSweepInternetGateways env region).2.take i) ∧
    (∀ i call, (testSweepInternetGateways env region).2[i]? = some call →
      env.errorOf ((testSweepInternetGateways env region).2.take i) call ≠ none →
      i + 1 = (testSweepInternetGateways env region).2.length ∧
        ((testSweepInternetGateways env region).1 = none ↔
          (i = 0 ∧ call = ec2.Call.DescribeInternetGateways {} ∧
            env.SkipSweepError (errOf (env.DescribeInternetGateways [] {})) = true))) := by
  obtain ⟨hwaited, hprep, hended, hfirst⟩ := testSweepInternetGateways.run_spec env region
  generalize testSweepInternetGateways env region = run at hwaited hprep hended hfirst ⊢
  obtain ⟨result, tr⟩ := run
  simp only at hwaited hprep hended hfirst ⊢
  refine ⟨?_, hprep, ?_⟩
  · intro i input h
    rcases hwaited with hw | ⟨earlier, last, htr, hw, hfail⟩
    · exact Or.inl (hw i input h)
    · subst htr
      by_cases hi : i < earlier.length
      · rw [List.getElem?_append_left hi] at h
        have hnext := hw i input h
        obtain ⟨hlt, _⟩ := List.getElem?_eq_some_iff.1 hnext
        left
        rw [List.getElem?_append_left hlt]
        exact hnext
      · have hle : earlier.length ≤ i := Nat.le_of_not_lt hi
        obtain ⟨hlt, _⟩ := List.getElem?_eq_some_iff.1 h
        have hieq : i = earlier.length := by
          simp only [List.length_append, List.length_singleton] at hlt
          omega
        subst hieq
        rw [List.getElem?_concat_length] at h
        have hinput : last = input := ec2.Call.DetachInternetGateway.inj (Option.some.inj h)
        subst hinput
        right
        refine ⟨by simp, ?_⟩
        rw [List.take_left]
        exact hfail
  · intro i call h hfails
    rcases hended with hall | ⟨hres, succeeded, last, htr, hpre, hall, hfail⟩ | ⟨htr, hfail, hres⟩
    · exact absurd (hall i call h) hfails
    · subst htr
      by_cases hi : i < succeeded.length
      · rw [List.getElem?_append_left hi] at h
        rw [List.take_append_of_le_length (Nat.le_of_lt hi)] at hfails
        exact absurd (hall i call h) hfails
      · have hle : succeeded.length ≤ i := Nat.le_of_not_lt hi
        obtain ⟨hlt, _⟩ := List.getElem?_eq_some_iff.1 h
        have hieq : i = succeeded.length := by
          simp only [List.length_append, List.length_singleton] at hlt
          omega
        have hpos : 1 ≤ succeeded.length := by
          have := hpre.length_le
          simpa using this
        refine ⟨by simp [hieq], ?_⟩
        constructor
        · intro hnone
          exact absurd hnone hres
        · rintro ⟨h0, _⟩
          omega
    · subst htr
      obtain ⟨hlt, hcall⟩ := List.getElem?_eq_some_iff.1 h
      have hi0 : i = 0 := by
        simp only [List.length_singleton] at hlt
        omega
      subst hi0
      simp only [List.getElem_cons_zero] at hcall
      refine ⟨rfl, ?_⟩
      rw [hres]
      constructor
      · intro hskip
        exact ⟨rfl, hcall.symm, hskip⟩
      · rintro ⟨_, _, hskip⟩
        exact hskip

/-- The run that refutes C16 as it is stated: `DescribeInternetGateways` fails
with an error that `acctest.SkipSweepError` accepts, and the sweeper returns
nil, not an error. -/
theorem C16_failing_describe_ends_with_nil :
    Env.sweepUnsupported.errorOf [] (ec2.Call.DescribeInternetGateways {})
      = some (GoError.aws "UnsupportedOperation" "not available in this region") ∧
    testSweepInternetGateways Env.sweepUnsupported "us-west-2"
      = (none, [ec2.Call.DescribeInternetGateways {}]) := by
  decide
